import Mathlib

/-!
Shallow embedding of the "blaster" web/twitter crawler application.

Modelling conventions:
* JavaScript strings are Lean `String`s; the handful of string primitives the
  code relies on (`trim`, `\s+` collapsing, `includes`, `encodeURIComponent`,
  CSV escaping, ...) are embedded character-by-character below.
* `fetch` and the other network effects are modelled as explicit oracles: a
  fetch environment maps a URL to `none` (network error / abort, i.e. a
  rejected promise) or `some (ok, body)` (a response with its `ok` flag and
  body text).  `response.json()` is a further oracle since it can throw.
* Code that can throw is modelled in `Except JsError`; `try/catch` becomes a
  `match` on the `Except` value.  `Promise.all` over a list of possibly
  throwing computations is `List.mapM` in the `Except` monad: it succeeds
  exactly when every element succeeds, and rejects otherwise.
* Regular-expression extraction applied to externally produced HTML
  (`linkRegex` matches, the `uddg` query-parameter lookup of `new URL(...)`)
  is at the boundary of the embedding and is given as an oracle input; every
  transformation downstream of it is embedded faithfully.
-/

namespace Js

/-- Character class of the JavaScript regular-expression `\s` (and of
`String.prototype.trim`): whitespace and line terminators. -/
def isJsWs (c : Char) : Bool :=
  c = ' ' ∨ c = '\t' ∨ c = '\n' ∨ c = '\r' ∨ c.toNat = 0xb ∨ c.toNat = 0xc ∨
  c.toNat = 0xa0 ∨ c.toNat = 0x1680 ∨
  (0x2000 ≤ c.toNat ∧ c.toNat ≤ 0x200a) ∨
  c.toNat = 0x2028 ∨ c.toNat = 0x2029 ∨ c.toNat = 0x202f ∨
  c.toNat = 0x205f ∨ c.toNat = 0x3000 ∨ c.toNat = 0xfeff

/-- JavaScript `String.prototype.trim`. -/
def jsTrim (s : String) : String :=
  String.mk (((s.data.dropWhile isJsWs).reverse.dropWhile isJsWs).reverse)

/-- State machine for `text.replace(/\s+/g, " ")`: the flag records whether
the previous character belonged to a whitespace run already replaced. -/
def collapseWsAux : Bool → List Char → List Char
  | _, [] => []
  | prevWs, c :: rest =>
    if isJsWs c then
      if prevWs then collapseWsAux true rest
      else ' ' :: collapseWsAux true rest
    else c :: collapseWsAux false rest

/-- Replacement `text.replace(/\s+/g, " ")`: every maximal run of whitespace
characters becomes a single space. -/
def collapseWs (l : List Char) : List Char :=
  collapseWsAux false l

/-- JavaScript `haystack.includes(needle)`. -/
def strIncludes (hay needle : String) : Bool :=
  (List.range (hay.data.length + 1)).any
    (fun i => needle.data.isPrefixOf (hay.data.drop i))

/-- JavaScript `s.startsWith(p)`. -/
def strStarts (s p : String) : Bool :=
  p.data.isPrefixOf s.data

/-- JavaScript `s.slice(n)` for a non-negative `n`. -/
def strDrop (s : String) (n : Nat) : String :=
  String.mk (s.data.drop n)

/-- JavaScript `s.slice(0, n)` / `s.substring(0, n)` for a non-negative
`n`. -/
def strSlice (s : String) (n : Nat) : String :=
  String.mk (s.data.take n)

/-- JavaScript single-character `s.includes(c)`. -/
def strHasChar (s : String) (c : Char) : Bool :=
  s.data.contains c

/-- String construction from a single character. -/
def ofChar (c : Char) : String := String.mk [c]

/-- Truthy-aware `a || b` for an optional JavaScript string: `undefined` and
the empty string are falsy. -/
def jsOr (a : Option String) (b : String) : String :=
  match a with
  | some s => if s = "" then b else s
  | none => b

/-- Truthy-aware `a || b` where both operands are optional strings. -/
def jsOrOpt (a b : Option String) : Option String :=
  match a with
  | some s => if s = "" then b else some s
  | none => b

/-- Uppercase hexadecimal digit for a value below 16. -/
def hexDigit (n : Nat) : Char :=
  if n < 10 then Char.ofNat ('0'.toNat + n)
  else Char.ofNat ('A'.toNat + (n - 10))

/-- UTF-8 bytes of one character (the encoding used when JavaScript
percent-encodes a code point). -/
def utf8Bytes (c : Char) : List Nat :=
  let n := c.toNat
  if n < 0x80 then [n]
  else if n < 0x800 then [0xc0 + n / 0x40, 0x80 + n % 0x40]
  else if n < 0x10000 then
    [0xe0 + n / 0x1000, 0x80 + n / 0x40 % 0x40, 0x80 + n % 0x40]
  else
    [0xf0 + n / 0x40000, 0x80 + n / 0x1000 % 0x40, 0x80 + n / 0x40 % 0x40,
     0x80 + n % 0x40]

/-- Percent-encoding of one byte, with uppercase hex digits. -/
def pctByte (b : Nat) : List Char :=
  ['%', hexDigit (b / 16), hexDigit (b % 16)]

/-- Characters that JavaScript `encodeURIComponent` leaves unescaped. -/
def isUriUnreserved (c : Char) : Bool :=
  c.isAlpha ∨ c.isDigit ∨
  c = '-' ∨ c = '_' ∨ c = '.' ∨ c = '!' ∨ c = '~' ∨ c = '*' ∨
  c = '\'' ∨ c = '(' ∨ c = ')'

/-- JavaScript `encodeURIComponent`. -/
def encodeURIComponent (s : String) : String :=
  String.mk (s.data.flatMap (fun c =>
    if isUriUnreserved c then [c] else (utf8Bytes c).flatMap pctByte))

/-- Characters that the `URLSearchParams` serializer leaves unescaped
(application/x-www-form-urlencoded set). -/
def isFormUnreserved (c : Char) : Bool :=
  c.isAlpha ∨ c.isDigit ∨ c = '*' ∨ c = '-' ∨ c = '.' ∨ c = '_'

/-- Serialization of one value by `URLSearchParams.toString()`: unreserved
characters kept, space written as `+`, everything else percent-encoded. -/
def formEncode (s : String) : String :=
  String.mk (s.data.flatMap (fun c =>
    if isFormUnreserved c then [c]
    else if c = ' ' then ['+']
    else (utf8Bytes c).flatMap pctByte))

/-- An exception value thrown by the embedded JavaScript: a rejected fetch
(network error / abort), a `response.json()` parse failure, or an explicit
`throw new Error(message)`. -/
inductive JsError where
  | network
  | badJson
  | thrown (message : String)
deriving DecidableEq, Repr

/-- Result of `fetchWithTimeout`: `none` when the promise rejects, otherwise
the response `ok` flag together with the body text. -/
abbrev FetchFn := String → Option (Bool × String)

end Js

namespace Crawler

open Js

/-- Entity `SearchResult` of `crawler.ts` (title, url, optional snippet). -/
structure SearchResult where
  title : String
  url : String
  snippet : Option String := none
deriving DecidableEq, Repr

/-- Entity `CrawledPage` of `crawler.ts`: a search result plus the readable
page content. -/
structure CrawledPage where
  title : String
  url : String
  snippet : Option String := none
  content : String
deriving DecidableEq, Repr

/-- Shape `DuckDuckGoTopic` (recursive `Topics` nesting). -/
inductive DDGTopic where
  | mk (Text FirstURL : Option String) (Topics : Option (List DDGTopic))

/-- Field accessor for `DDGTopic.Text`. -/
def DDGTopic.text : DDGTopic → Option String
  | .mk t _ _ => t

/-- Field accessor for `DDGTopic.FirstURL`. -/
def DDGTopic.firstURL : DDGTopic → Option String
  | .mk _ u _ => u

/-- Field accessor for `DDGTopic.Topics`. -/
def DDGTopic.topics : DDGTopic → Option (List DDGTopic)
  | .mk _ _ ts => ts

/-- Item of `DuckDuckGoResponse.Results`. -/
structure DDGItem where
  Text : Option String := none
  FirstURL : Option String := none
deriving DecidableEq, Repr

/-- Shape `DuckDuckGoResponse` of the DuckDuckGo JSON API payload.  `Results`
and `RelatedTopics` are `some` exactly when the JSON field is an array
(the code guards with `Array.isArray`). -/
structure DuckDuckGoResponse where
  AbstractURL : Option String := none
  Heading : Option String := none
  AbstractText : Option String := none
  Results : Option (List DDGItem) := none
  RelatedTopics : Option (List DDGTopic) := none

/-- Constant `MAX_RESULTS` of `crawler.ts`. -/
def MAX_RESULTS : Nat := 6

/-- Constant `MAX_PAGES` of `crawler.ts`. -/
def MAX_PAGES : Nat := 3

/-- Constant `MAX_CONTENT_CHARS` of `crawler.ts`. -/
def MAX_CONTENT_CHARS : Nat := 6000

/-- Function `cleanupText` of `crawler.ts`:
`text.replace(/\s+/g, " ").replace(/\u0000/g, " ").trim()`. -/
def cleanupText (text : String) : String :=
  jsTrim (String.mk ((collapseWs text.data).map
    (fun c => if c.toNat = 0 then ' ' else c)))

/-- Named-entity table of `decodeHtmlEntities` (keys are the full entity). -/
def entityMap (entity : String) : Option String :=
  if entity = "&amp;" then some "&"
  else if entity = "&lt;" then some "<"
  else if entity = "&gt;" then some ">"
  else if entity = "&quot;" then some "\""
  else if entity = "&apos;" then some "'"
  else none

/-- JavaScript `String.fromCharCode`: the argument is reduced modulo 2^16 and
turned into one UTF-16 code unit. -/
def fromCharCode (n : Nat) : Char :=
  Char.ofNat (n % 65536)

/-- Hexadecimal digit test of the character class `[\da-fA-F]`. -/
def isHexDigit (c : Char) : Bool :=
  c.isDigit ∨ ('a' ≤ c ∧ c ≤ 'f') ∨ ('A' ≤ c ∧ c ≤ 'F')

/-- Value of one hexadecimal digit. -/
def hexVal (c : Char) : Nat :=
  if c.isDigit then c.toNat - '0'.toNat
  else if 'a' ≤ c ∧ c ≤ 'f' then c.toNat - 'a'.toNat + 10
  else c.toNat - 'A'.toNat + 10

/-- Numeric value of a digit list in the given base. -/
def digitsVal (base : Nat) (f : Char → Nat) (l : List Char) : Nat :=
  l.foldl (fun acc c => acc * base + f c) 0

/-- Attempted match of the entity body regex `(#\d+|#x[\da-fA-F]+|[a-zA-Z]+);`
right after a `&`.  Returns the replacement text together with the number of
characters consumed after the `&`. -/
def entityAt (rest : List Char) : Option (String × Nat) :=
  match rest with
  | '#' :: 'x' :: tl =>
    let digits := tl.takeWhile isHexDigit
    let afterDigits := tl.drop digits.length
    if digits.length > 0 ∧ afterDigits.headD ' ' = ';' ∧ afterDigits ≠ [] then
      some (ofChar (fromCharCode (digitsVal 16 hexVal digits)),
            digits.length + 3)
    else none
  | '#' :: tl =>
    let digits := tl.takeWhile Char.isDigit
    let afterDigits := tl.drop digits.length
    if digits.length > 0 ∧ afterDigits.headD ' ' = ';' ∧ afterDigits ≠ [] then
      some (ofChar (fromCharCode (digitsVal 10 (fun c => c.toNat - '0'.toNat) digits)),
            digits.length + 2)
    else none
  | tl =>
    let letters := tl.takeWhile Char.isAlpha
    let afterLetters := tl.drop letters.length
    if letters.length > 0 ∧ afterLetters.headD ' ' = ';' ∧ afterLetters ≠ [] then
      let entity := String.mk ('&' :: letters ++ [';'])
      some ((entityMap entity).getD entity, letters.length + 1)
    else none

/-- Scanner for `decodeHtmlEntities`: each regex match of
`/&(#\d+|#x[\da-fA-F]+|[a-zA-Z]+);/g` is replaced according to the source's
replacement function. -/
def decodeEntitiesChars : List Char → List Char
  | [] => []
  | c :: rest =>
    if c = '&' then
      match entityAt rest with
      | some (repl, consumed) =>
        repl.data ++ decodeEntitiesChars (rest.drop consumed)
      | none => c :: decodeEntitiesChars rest
    else c :: decodeEntitiesChars rest
termination_by l => l.length
decreasing_by
  · simp only [List.length_cons]
    exact Nat.lt_succ_of_le (by simpa using List.length_drop_le consumed rest)
  · simp [Nat.lt_succ_self]
  · simp [Nat.lt_succ_self]

/-- Function `decodeHtmlEntities` of `crawler.ts`. -/
def decodeHtmlEntities (text : String) : String :=
  String.mk (decodeEntitiesChars text.data)

/-- Case-insensitive match of `needle` at the start of `hay` (ASCII folding,
enough for the fixed tag needles used by the source regexes). -/
def startsWithCI (needle hay : List Char) : Bool :=
  (needle.map Char.toLower).isPrefixOf (hay.map Char.toLower)

/-- First index at which `needle` occurs case-insensitively in `hay`. -/
def findSubCI (needle hay : List Char) : Option Nat :=
  (List.range (hay.length + 1)).find? (fun i => startsWithCI needle (hay.drop i))

lemma isPrefixOf_length_le : ∀ {t x : List Char}, t.isPrefixOf x = true →
    t.length ≤ x.length
  | [], _, _ => Nat.zero_le _
  | _ :: _, [], h => by simp [List.isPrefixOf] at h
  | a :: t, b :: x, h => by
    simp only [List.isPrefixOf, Bool.and_eq_true, beq_iff_eq] at h
    simpa using Nat.succ_le_succ (isPrefixOf_length_le h.2)

lemma findSubCI_le {needle hay : List Char} {i : Nat}
    (h : findSubCI needle hay = some i) :
    i + needle.length ≤ hay.length := by
  have hp := List.find?_some h
  have : needle.length ≤ (hay.drop i).length := by
    have := isPrefixOf_length_le (t := needle.map Char.toLower)
      (x := (hay.drop i).map Char.toLower) (by simpa [startsWithCI] using hp)
    simpa using this
  have hi : i ∈ List.range (hay.length + 1) := List.mem_of_find?_eq_some h
  have : i + needle.length ≤ i + (hay.length - i) := Nat.add_le_add_left (by simpa using this) i
  rcases Nat.le_total i hay.length with hle | hgt
  · omega
  · have := List.mem_range.mp hi; omega

/-- Removal of non-greedy case-insensitive blocks, modelling
`html.replace(/<open[\s\S]*?<\/close>/gi, " ")` where `openT`/`closeT` are the
literal opening and closing delimiters: the earliest opener is paired with the
earliest closer after it and the whole block becomes one space. -/
def stripBlocks (openT closeT : List Char) (hOpen : openT ≠ [])
    (l : List Char) : List Char :=
  match hfind : findSubCI openT l with
  | none => l
  | some i =>
    match hclose : findSubCI closeT (l.drop (i + openT.length)) with
    | none => l
    | some j =>
      l.take i ++ ' ' ::
        stripBlocks openT closeT hOpen
          ((l.drop (i + openT.length)).drop (j + closeT.length))
termination_by l.length
decreasing_by
  have h1 := findSubCI_le hfind
  have : 1 ≤ openT.length := by
    cases openT with
    | nil => exact absurd rfl hOpen
    | cons a t => simp
  simp only [List.length_drop]
  omega

/-- Scanner for the tag-removal regex `/<[^>]*>/g`: a `<` followed (without an
intervening `>`) by a `>` becomes one space; a `<` with no later `>` never
matches and is kept. -/
def stripTagChars : List Char → List Char
  | [] => []
  | c :: rest =>
    if c = '<' then
      match rest.findIdx? (· = '>') with
      | some j => ' ' :: stripTagChars (rest.drop (j + 1))
      | none => c :: stripTagChars rest
    else c :: stripTagChars rest
termination_by l => l.length
decreasing_by
  · simp only [List.length_cons]
    exact Nat.lt_succ_of_le (by simpa using List.length_drop_le (j + 1) rest)
  · simp [Nat.lt_succ_self]
  · simp [Nat.lt_succ_self]

/-- Function `stripHtml` of `crawler.ts`: remove `<script>`/`<style>` blocks,
strip the remaining tags, then `cleanupText ∘ decodeHtmlEntities`. -/
def stripHtml (html : String) : String :=
  let noScripts := stripBlocks "<script".data "</script>".data (by decide) html.data
  let noStyles := stripBlocks "<style".data "</style>".data (by decide) noScripts
  let noTags := stripTagChars noStyles
  cleanupText (decodeHtmlEntities (String.mk noTags))

/-- Function `stripTags` of `crawler.ts`:
`cleanupText(decodeHtmlEntities(value.replace(/<[^>]*>/g, " ")))`. -/
def stripTags (value : String) : String :=
  cleanupText (decodeHtmlEntities (String.mk (stripTagChars value.data)))

/-- Function `toReaderUrl` of `crawler.ts`. -/
def toReaderUrl (targetUrl : String) : String :=
  let normalized :=
    if strStarts targetUrl "http" then targetUrl else "https://" ++ targetUrl
  let stripped :=
    if strStarts normalized "https://" then strDrop normalized 8
    else if strStarts normalized "http://" then strDrop normalized 7
    else normalized
  "https://r.jina.ai/http://" ++ stripped

/-- Function `fetchReadableText` of `crawler.ts`: try the reader proxy and
clean its text; on any failure there, fetch the page directly and strip its
HTML; a failing direct fetch escapes as an error. -/
def fetchReadableText (fetch : FetchFn) (url : String) :
    Except JsError String :=
  match fetch (toReaderUrl url) with
  | some (true, text) => .ok (cleanupText text)
  | _ =>
    match fetch url with
    | none => .error .network
    | some (false, _) => .error (.thrown "Fetch failed")
    | some (true, html) => .ok (stripHtml html)

/-- Function `normalizeResult` of `crawler.ts`: a result is produced only when
both title and url are truthy; the snippet is dropped when falsy. -/
def normalizeResult (title url snippet : Option String) :
    Option SearchResult :=
  match title, url with
  | some t, some u =>
    if t = "" ∨ u = "" then none
    else some { title := cleanupText t, url := u,
                snippet := match snippet with
                           | some s => if s = "" then none else some (cleanupText s)
                           | none => none }
  | _, _ => none

mutual

/-- Function `flattenTopics` of `crawler.ts`: topics with a truthy nested
`Topics` array are recursed into, the rest are normalized and collected. -/
def flattenTopics : List DDGTopic → List SearchResult
  | [] => []
  | item :: rest => flattenTopic item ++ flattenTopics rest

/-- Contribution of one topic to `flattenTopics`. -/
def flattenTopic : DDGTopic → List SearchResult
  | .mk t u ts =>
    match ts with
    | some nested => flattenTopics nested
    | none =>
      match normalizeResult t u none with
      | some entry => [entry]
      | none => []

end

/-- Result of executing `linkRegex` once in `parseDuckDuckGoHtml` /
`parseWebResultsFromHtml`: the raw `href` capture, the raw anchor body, and
the raw snippet capture of the 800/900-character look-ahead chunk (when the
snippet regex matched).  Regex execution over external HTML is the boundary
of the embedding and a list of these matches is taken as input. -/
structure LinkMatch where
  href : String
  inner : String
  snippetRaw : Option String := none
deriving DecidableEq, Repr

/-- Oracle for `new URL(withScheme).searchParams.get("uddg")` followed by
`decodeURIComponent`: `some` is the decoded parameter, `none` covers a
missing parameter as well as the caught URL-parse failure. -/
abbrev UddgFn := String → Option String

/-- Function `resolveDuckDuckGoUrl` of `crawler.ts`. -/
def resolveDuckDuckGoUrl (uddg : UddgFn) (rawUrl : String) : String :=
  let withScheme :=
    if strStarts rawUrl "//" then "https:" ++ rawUrl else rawUrl
  if strIncludes withScheme "duckduckgo.com/l/" then
    match uddg withScheme with
    | some decoded => decoded
    | none => withScheme
  else withScheme

/-- Loop body of `parseDuckDuckGoHtml` of `crawler.ts`, applied to the
extracted regex matches: resolve the url, strip the title, strip the snippet
capture, and keep the normalized entries. -/
def parseDuckDuckGoHtml (uddg : UddgFn) (ms : List LinkMatch) :
    List SearchResult :=
  ms.flatMap (fun m =>
    let url := resolveDuckDuckGoUrl uddg m.href
    let title := stripTags m.inner
    let snippet := m.snippetRaw.map stripTags
    match normalizeResult (some title) (some url) snippet with
    | some entry => [entry]
    | none => [])

/-- Environment of `crawler.ts`: the fetch oracle plus the JSON-parse and
regex boundaries described above. -/
structure CrawlerEnv where
  fetch : FetchFn
  /-- Oracle for `response.json()` on the DuckDuckGo API body: `none` means
  the parse threw. -/
  parseJson : String → Option DuckDuckGoResponse
  /-- Oracle for executing `linkRegex`/`snippetRegex` over a fallback HTML
  page. -/
  linkMatches : String → List LinkMatch
  /-- Oracle for the `uddg` redirect-parameter extraction. -/
  uddg : UddgFn

/-- URL of the DuckDuckGo HTML fallback endpoint for a query. -/
def ddgHtmlUrl (query : String) : String :=
  "https://duckduckgo.com/html/?q=" ++ encodeURIComponent query

/-- Serialized search endpoint `https://api.duckduckgo.com/` with the query
parameters set by `searchWeb`. -/
def searchEndpointUrl (query : String) : String :=
  "https://api.duckduckgo.com/?q=" ++ formEncode query ++
    "&format=json&no_redirect=1&no_html=1&t=blaster"

/-- Function `searchDuckDuckGoHtml` of `crawler.ts`: fetch the HTML endpoint,
throw `Search provider error` on a non-ok response, else parse. -/
def searchDuckDuckGoHtml (env : CrawlerEnv) (query : String) :
    Except JsError (List SearchResult) :=
  match env.fetch (ddgHtmlUrl query) with
  | none => .error .network
  | some (false, _) => .error (.thrown "Search provider error")
  | some (true, html) => .ok (parseDuckDuckGoHtml env.uddg (env.linkMatches html))

/-- Results gathered from a successfully parsed API payload (abstract entry,
`Results` array, flattened `RelatedTopics`), lines 182-196 of `crawler.ts`. -/
def apiResults (payload : DuckDuckGoResponse) : List SearchResult :=
  let abstractEntries :=
    match payload.AbstractURL, payload.Heading with
    | some au, some h =>
      if au = "" ∨ h = "" then []
      else
        match normalizeResult (some h) (some au) payload.AbstractText with
        | some entry => [entry]
        | none => []
    | _, _ => []
  let resultEntries :=
    match payload.Results with
    | some items =>
      items.flatMap (fun item =>
        match normalizeResult item.Text item.FirstURL none with
        | some entry => [entry]
        | none => [])
    | none => []
  let topicEntries :=
    match payload.RelatedTopics with
    | some topics => flattenTopics topics
    | none => []
  abstractEntries ++ resultEntries ++ topicEntries

/-- De-duplicating `Map` loop shared by `searchWeb` (crawler.ts 207-213) and
`parseWebResultsFromHtml` (search.ts 132-138): first occurrence of each key
wins and insertion order is kept. -/
def jsDedupeBy {α : Type} (key : α → String) (l : List α) : List α :=
  l.foldl (fun acc item =>
    if acc.any (fun r => key r = key item) then acc else acc ++ [item]) []

/-- Results gathered by the `try` block of `searchWeb` (lines 178-200): empty
when the API fetch rejects, responds non-ok, or its JSON fails to parse (all
three are swallowed), otherwise the parsed payload's entries. -/
def apiGather (env : CrawlerEnv) (query : String) : List SearchResult :=
  match env.fetch (searchEndpointUrl query) with
  | none => []
  | some (false, _) => []
  | some (true, body) =>
    match env.parseJson body with
    | none => []
    | some payload => apiResults payload

/-- Function `searchWeb` of `crawler.ts`: query the JSON API (all failures
ignored), fall back to the HTML endpoint when no result was gathered, then
de-duplicate by URL and truncate to `MAX_RESULTS`. -/
def searchWeb (env : CrawlerEnv) (query : String) :
    Except JsError (List SearchResult) :=
  let results := apiGather env query
  if results.length = 0 then
    match searchDuckDuckGoHtml env query with
    | .error e => .error e
    | .ok htmlResults =>
      .ok ((jsDedupeBy SearchResult.url (results ++ htmlResults)).take MAX_RESULTS)
  else
    .ok ((jsDedupeBy SearchResult.url results).take MAX_RESULTS)

/-- Contents of the mutable `results` array of `searchWeb` right before the
de-duplicating loop (lines 207-213) runs over it: the API entries, extended
by the HTML fallback's entries when none were gathered (when the fallback
itself fails, `searchWeb` never reaches the loop and the value is unused). -/
def gatheredResults (env : CrawlerEnv) (query : String) : List SearchResult :=
  let results := apiGather env query
  if results.length = 0 then
    match searchDuckDuckGoHtml env query with
    | .error _ => results
    | .ok htmlResults => results ++ htmlResults
  else results

/-- Page produced for one crawl target from the fetched text (the mapper
inside `crawlPages`). -/
def toCrawledPage (item : SearchResult) (text : String) : CrawledPage :=
  { title := item.title, url := item.url, snippet := item.snippet,
    content := strSlice text MAX_CONTENT_CHARS }

/-- Function `crawlPages` of `crawler.ts`: `Promise.all` over the first
`MAX_PAGES` targets (rejecting when any target's fetch rejects), then drop
pages with empty content. -/
def crawlPages (fetch : FetchFn) (results : List SearchResult) :
    Except JsError (List CrawledPage) :=
  let targets := results.take MAX_PAGES
  (targets.mapM (fun item =>
    (fetchReadableText fetch item.url).map (toCrawledPage item))).map
    (fun pages => pages.filter (fun page => page.content.length > 0))

end Crawler

namespace Twitter

open Js

/-- Author record embedded in `TweetResult`. -/
structure Author where
  username : String
  name : String
  profileImageUrl : Option String := none
deriving DecidableEq, Repr

/-- Media attachment of a `TweetResult` (`{ type, url }`); the url can be
`undefined` when the API item has neither `url` nor `preview_image_url`. -/
structure MediaOut where
  type : String
  url : Option String := none
deriving DecidableEq, Repr

/-- Referenced tweet (`{ type, id }`). -/
structure RefTweet where
  type : String
  id : String
deriving DecidableEq, Repr

/-- Entity `TweetResult` of `twitter-crawler.ts`. -/
structure TweetResult where
  id : String
  text : String
  author : Author
  createdAt : String
  url : String
  retweetCount : Nat := 0
  likeCount : Nat := 0
  replyCount : Nat := 0
  quoteCount : Option Nat := none
  media : Option (List MediaOut) := none
  referencedTweets : Option (List RefTweet) := none
deriving DecidableEq, Repr

/-- Entity `CrawlResponse` of `twitter-crawler.ts`. -/
structure CrawlResponse where
  query : String
  tweets : List TweetResult
  summary : String
  crawledAt : String
deriving DecidableEq, Repr

/-- Constant `MAX_TWEETS_PER_CRAWL`. -/
def MAX_TWEETS_PER_CRAWL : Nat := 20

/-- Constant `MAX_CONCURRENT_CRAWLS`. -/
def MAX_CONCURRENT_CRAWLS : Nat := 5

/-- User object of the Twitter API `includes.users` array. -/
structure RawUserV2 where
  id : String
  username : String
  name : String
  profile_image_url : Option String := none
deriving DecidableEq, Repr

/-- Media object of the Twitter API `includes.media` array. -/
structure RawMediaV2 where
  media_key : String
  type : String
  url : Option String := none
  preview_image_url : Option String := none
deriving DecidableEq, Repr

/-- Shape `public_metrics` of a `TweetV2`. -/
structure PublicMetrics where
  retweet_count : Nat := 0
  like_count : Nat := 0
  reply_count : Nat := 0
  quote_count : Nat := 0
deriving DecidableEq, Repr

/-- Shape `attachments` of a `TweetV2`. -/
structure RawAttachments where
  media_keys : Option (List String) := none
deriving DecidableEq, Repr

/-- Tweet object `TweetV2` as consumed by `searchTweets`. -/
structure RawTweetV2 where
  id : String
  text : String
  author_id : Option String := none
  created_at : Option String := none
  attachments : Option RawAttachments := none
  public_metrics : Option PublicMetrics := none
  referenced_tweets : Option (List RefTweet) := none
deriving DecidableEq, Repr

/-- Shape `includes` of the search response. -/
structure RawIncludes where
  users : Option (List RawUserV2) := none
  media : Option (List RawMediaV2) := none
deriving DecidableEq, Repr

/-- Response of `client.v2.search`: `tweets.includes` and `tweets.data.data`
(the inner `data` array may be absent, guarded by `|| []`). -/
structure RawSearchResponse where
  includes : Option RawIncludes := none
  data : Option (List RawTweetV2) := none
deriving DecidableEq, Repr

/-- Error thrown by the underlying Twitter client, as inspected by the catch
block of `searchTweets` (`code` and `message` of the cast error). -/
structure TwitterApiError where
  code : Option Nat := none
  message : Option String := none
deriving DecidableEq, Repr

/-- Request issued by `searchTweets` (lines 50-56): the query, the constant
field/expansion lists and `max_results`. -/
structure SearchRequest where
  query : String
  tweetFields : List String :=
    ["created_at", "public_metrics", "author_id", "referenced_tweets", "entities"]
  userFields : List String := ["name", "username", "profile_image_url"]
  mediaFields : List String := ["type", "url"]
  max_results : Nat
  expansions : List String := ["author_id", "attachments.media_keys"]
deriving DecidableEq, Repr

/-- Request constructed by `searchTweets` for a query and a `max_results`
value. -/
def mkSearchRequest (query : String) (maxResults : Nat) : SearchRequest :=
  { query := query, max_results := maxResults }

/-- Environment of `TwitterCrawler`: the API-call oracle and the wall clock
(`new Date().toISOString()`). -/
structure TwitterEnv where
  search : SearchRequest → Except TwitterApiError RawSearchResponse
  now : String

/-- JavaScript `Map` lookup where the map was filled by repeated `set` calls
over `entries` (a later `set` on the same key overwrites an earlier one). -/
def mapGet {β : Type} (entries : List (String × β)) (key : String) : Option β :=
  (entries.reverse.find? (fun e => e.1 = key)).map (fun e => e.2)

/-- Value stored in `usersMap` for one `includes.users` entry. -/
def userEntry (u : RawUserV2) : String × Author :=
  (u.id, { username := u.username, name := u.name,
           profileImageUrl := u.profile_image_url })

/-- Value stored in `mediaMap` for one `includes.media` entry
(`url: media.url || media.preview_image_url`). -/
def mediaEntry (m : RawMediaV2) : String × MediaOut :=
  (m.media_key, { type := m.type, url := jsOrOpt m.url m.preview_image_url })

/-- Mapping of one `TweetV2` to a `TweetResult` (lines 80-96). -/
def mapRawTweet (usersMap : List (String × Author))
    (mediaMap : List (String × MediaOut)) (now : String)
    (tweet : RawTweetV2) : TweetResult :=
  let author := tweet.author_id.bind (mapGet usersMap)
  let media :=
    match tweet.attachments with
    | some att =>
      match att.media_keys with
      | some keys => keys.filterMap (mapGet mediaMap)
      | none => []
    | none => []
  let metrics := tweet.public_metrics.getD {}
  { id := tweet.id
    text := tweet.text
    author := author.getD { username := "unknown", name := "Unknown User" }
    createdAt := jsOr tweet.created_at now
    url := "https://twitter.com/" ++ jsOr (author.map (fun a => a.username)) "twitter" ++
           "/status/" ++ tweet.id
    retweetCount := metrics.retweet_count
    likeCount := metrics.like_count
    replyCount := metrics.reply_count
    quoteCount := some metrics.quote_count
    media := some media
    referencedTweets := tweet.referenced_tweets }

/-- Error message computed by the catch block of `searchTweets`
(lines 101-113). -/
def searchErrorMessage (e : TwitterApiError) : String :=
  if e.code = some 429 then
    "Twitter API rate limit exceeded. Please try again later."
  else if e.code = some 401 ∨ e.code = some 403 then
    "Twitter API authentication failed. Please check your API credentials."
  else if e.code = some 400 then
    "Invalid search query. Please try a different search term."
  else if e.code = some 503 then
    "Twitter API service is temporarily unavailable. Please try again later."
  else
    "Failed to search tweets: " ++ jsOr e.message "Unknown error"

/-- Method `TwitterCrawler.searchTweets`: issue the search request, build the
user and media maps from `includes`, map the tweets, and translate a client
error into the thrown message. -/
def searchTweets (env : TwitterEnv) (query : String)
    (maxResults : Nat := MAX_TWEETS_PER_CRAWL) :
    Except String (List TweetResult) :=
  match env.search (mkSearchRequest query maxResults) with
  | .error e => .error (searchErrorMessage e)
  | .ok tweets =>
    let usersMap :=
      match tweets.includes with
      | some inc => (inc.users.getD []).map userEntry
      | none => []
    let mediaMap :=
      match tweets.includes with
      | some inc => (inc.media.getD []).map mediaEntry
      | none => []
    .ok ((tweets.data.getD []).map (mapRawTweet usersMap mediaMap env.now))

/-- Counting `Map` filled by `authorCount.set(author, (get(author) || 0) + 1)`:
the key keeps its insertion position, its count is bumped. -/
def bumpCount : List (String × Nat) → String → List (String × Nat)
  | [], a => [(a, 1)]
  | (k, v) :: rest, a =>
    if k = a then (k, v + 1) :: rest else (k, v) :: bumpCount rest a

/-- Author-to-count map over a tweet list (insertion order of first
appearance). -/
def authorCounts (tweets : List TweetResult) : List (String × Nat) :=
  tweets.foldl (fun m t => bumpCount m t.author.username) []

/-- Comparator `(a, b) => b[1] - a[1]` as a sort order: `a` may precede `b`
when its count is at least `b`'s. -/
def byCountDesc (a b : String × Nat) : Bool :=
  b.2 ≤ a.2

/-- Method `TwitterCrawler.getTopAuthors` (and textually identical
`ExportUtils.getTopAuthors`): count tweets per author, sort by descending
count, keep the first `limit`, prefix with `@`. -/
def getTopAuthors (tweets : List TweetResult) (limit : Nat := 3) :
    List String :=
  (((authorCounts tweets).mergeSort byCountDesc).take limit).map
    (fun p => "@" ++ p.1)

/-- Word lists of `analyzeSentiment`. -/
def positiveWords : List String :=
  ["good", "great", "excellent", "amazing", "love", "happy", "positive"]

/-- Negative word list of `analyzeSentiment`. -/
def negativeWords : List String :=
  ["bad", "terrible", "awful", "hate", "sad", "negative", "worst"]

/-- ASCII lowering standing in for `String.prototype.toLowerCase` (the
sentiment and topic words are ASCII). -/
def jsToLower (s : String) : String :=
  String.mk (s.data.map Char.toLower)

/-- Method `TwitterCrawler.analyzeSentiment`. -/
def analyzeSentiment (tweets : List TweetResult) : String :=
  let positiveCount := tweets.foldl (fun acc t =>
    acc + (positiveWords.countP (fun w => strIncludes (jsToLower t.text) w))) 0
  let negativeCount := tweets.foldl (fun acc t =>
    acc + (negativeWords.countP (fun w => strIncludes (jsToLower t.text) w))) 0
  if positiveCount > negativeCount * 2 then "Positive"
  else if negativeCount > positiveCount * 2 then "Negative"
  else if positiveCount > negativeCount then "Mostly Positive"
  else if negativeCount > positiveCount then "Mostly Negative"
  else "Neutral"

/-- Stop-word set of `extractKeyTopics`. -/
def commonWords : List String :=
  ["the", "and", "for", "you", "this", "that", "with", "have", "are", "was"]

/-- Word-character test of the regex class `\w`. -/
def isWordChar (c : Char) : Bool :=
  c.isAlpha ∨ c.isDigit ∨ c = '_'

/-- Splitter for `str.split(/\s+/)` (leading or trailing whitespace produces
empty tokens, as in JavaScript). -/
def splitWsGo : List Char → List Char → List String
  | [], cur => [String.mk cur.reverse]
  | c :: rest, cur =>
    if Js.isJsWs c then
      String.mk cur.reverse :: splitWsGo (rest.dropWhile Js.isJsWs) []
    else splitWsGo rest (c :: cur)
termination_by l _ => l.length
decreasing_by
  · simp only [List.length_cons]
    exact Nat.lt_succ_of_le (List.Sublist.length_le (List.dropWhile_sublist _))
  · simp [Nat.lt_succ_self]

/-- JavaScript `s.split(/\s+/)`. -/
def splitWs (s : String) : List String :=
  splitWsGo s.data []

/-- Word list of one tweet in `extractKeyTopics`: lower-case, replace
non-word non-space characters by a space, split on whitespace, keep words
longer than 3 that are not stop words. -/
def topicWords (text : String) : List String :=
  let cleaned := String.mk ((jsToLower text).data.map
    (fun c => if isWordChar c ∨ Js.isJsWs c then c else ' '))
  (splitWs cleaned).filter
    (fun w => w.length > 3 ∧ ¬ commonWords.contains w)

/-- Capitalization `word.charAt(0).toUpperCase() + word.slice(1)`. -/
def capitalizeWord (w : String) : String :=
  match w.data with
  | [] => ""
  | c :: rest => String.mk (c.toUpper :: rest)

/-- Method `TwitterCrawler.extractKeyTopics`. -/
def extractKeyTopics (tweets : List TweetResult) (limit : Nat := 5) :
    List String :=
  let wordCount := tweets.foldl (fun m t =>
    (topicWords t.text).foldl bumpCount m) []
  ((wordCount.mergeSort byCountDesc).take limit).map
    (fun p => capitalizeWord p.1)

/-- Method `TwitterCrawler.generateSummary`. -/
def generateSummary (tweets : List TweetResult) (query : String) : String :=
  if tweets.length = 0 then
    "No tweets found for query: \"" ++ query ++ "\""
  else
    "Found " ++ toString tweets.length ++ " tweets for \"" ++ query ++ "\". " ++
    "Top contributors: " ++ String.intercalate ", " (getTopAuthors tweets) ++ ". " ++
    "Overall sentiment: " ++ analyzeSentiment tweets ++ ". " ++
    "Key topics discussed: " ++ String.intercalate ", " (extractKeyTopics tweets) ++ "."

/-- Error summary computed by the catch block of `crawlMultipleQueries`
(lines 134-141). -/
def crawlErrorMessage (query message : String) : String :=
  if strIncludes message "rate limit" then
    "Rate limit exceeded for query: " ++ query ++ ". Please wait before trying again."
  else if strIncludes message "authentication" then
    "Authentication failed for query: " ++ query ++ ". Please check API credentials."
  else
    "Failed to crawl tweets for query: " ++ query

/-- Response produced for one query inside `crawlMultipleQueries` (its
per-query `try/catch` turns a failing `searchTweets` into an empty response
with an error summary). -/
def crawlOneQuery (env : TwitterEnv) (query : String) : CrawlResponse :=
  match searchTweets env query with
  | .ok tweets =>
    { query := query, tweets := tweets,
      summary := generateSummary tweets query, crawledAt := env.now }
  | .error message =>
    { query := query, tweets := [],
      summary := crawlErrorMessage query message, crawledAt := env.now }

/-- Method `TwitterCrawler.crawlMultipleQueries`: keep the first
`MAX_CONCURRENT_CRAWLS` queries, crawl each independently; no promise in the
`Promise.all` can reject. -/
def crawlMultipleQueries (env : TwitterEnv) (queries : List String) :
    List CrawlResponse :=
  (queries.take MAX_CONCURRENT_CRAWLS).map (crawlOneQuery env)

end Twitter

namespace ExportUtils

open Js Twitter

/-- Method `ExportUtils.escapeCSV`: quote the text, doubling inner quotes,
exactly when it contains a comma, a double quote or a newline. -/
def escapeCSV (text : String) : String :=
  if strHasChar text ',' ∨ strHasChar text '"' ∨ strHasChar text '\n' then
    "\"" ++ String.mk (text.data.flatMap
      (fun c => if c = '"' then ['"', '"'] else [c])) ++ "\""
  else text

/-- Header array of `ExportUtils.toCSV`. -/
def csvHeaders : List String :=
  ["ID", "Text", "Author Username", "Author Name", "Created At", "URL",
   "Retweet Count", "Like Count", "Reply Count", "Quote Count", "Media Count"]

/-- Row built for one tweet by `ExportUtils.toCSV` (only the text field runs
through `escapeCSV`; `mediaCount` is `tweet.media?.length || 0`). -/
def csvRow (tweet : TweetResult) : String :=
  String.intercalate ","
    [tweet.id,
     escapeCSV tweet.text,
     tweet.author.username,
     tweet.author.name,
     tweet.createdAt,
     tweet.url,
     toString tweet.retweetCount,
     toString tweet.likeCount,
     toString tweet.replyCount,
     toString (tweet.quoteCount.getD 0),
     toString ((tweet.media.map List.length).getD 0)]

/-- Method `ExportUtils.toCSV`. -/
def toCSV (tweets : List TweetResult) : String :=
  if tweets.length = 0 then ""
  else
    String.intercalate "\n"
      (String.intercalate "," csvHeaders :: tweets.map csvRow)

/-- Method `ExportUtils.getTopAuthors` (textually identical to
`TwitterCrawler.getTopAuthors`, with a mandatory limit argument). -/
def getTopAuthors (tweets : List TweetResult) (limit : Nat) : List String :=
  (((Twitter.authorCounts tweets).mergeSort Twitter.byCountDesc).take limit).map
    (fun p => "@" ++ p.1)

end ExportUtils

namespace Search

open Js

/-- Entity `WebResult` of `search.ts`. -/
structure WebResult where
  title : String
  url : String
  snippet : Option String := none
deriving DecidableEq, Repr

/-- Entity `ImageResult` of `search.ts`. -/
structure ImageResult where
  title : String
  url : String
  image : String
  thumbnail : Option String := none
  source : Option String := none
  width : Option Nat := none
  height : Option Nat := none
deriving DecidableEq, Repr

/-- Constant `MAX_WEB_RESULTS` of `search.ts`. -/
def MAX_WEB_RESULTS : Nat := 8

/-- Constant `MAX_IMAGE_RESULTS` of `search.ts`. -/
def MAX_IMAGE_RESULTS : Nat := 12

/-- Function `cleanupText` of `search.ts`:
`text.replace(/\s+/g, " ").trim()`. -/
def cleanupText (text : String) : String :=
  jsTrim (String.mk (Js.collapseWs text.data))

/-- Function `stripTags` of `search.ts` (same pipeline as the crawler's,
without the NUL replacement of its `cleanupText`). -/
def stripTags (value : String) : String :=
  cleanupText (Crawler.decodeHtmlEntities
    (String.mk (Crawler.stripTagChars value.data)))

/-- Collection loop of `parseWebResultsFromHtml` (search.ts lines 120-130),
applied to the extracted `linkRegex` matches: resolve each url, strip the
title and snippet captures, keep entries whose title and url are truthy. -/
def collectWebResults (uddg : Crawler.UddgFn)
    (ms : List Crawler.LinkMatch) : List WebResult :=
  ms.flatMap (fun m =>
    let url := Crawler.resolveDuckDuckGoUrl uddg m.href
    let title := stripTags m.inner
    let snippet := m.snippetRaw.map stripTags
    if title = "" ∨ url = "" then []
    else [{ title := title, url := url, snippet := snippet }])

/-- De-duplication and truncation applied by `parseWebResultsFromHtml`
(search.ts lines 132-139) to the collected entries. -/
def parseWebResultsFromHtml (uddg : Crawler.UddgFn)
    (ms : List Crawler.LinkMatch) : List WebResult :=
  (Crawler.jsDedupeBy WebResult.url (collectWebResults uddg ms)).take
    MAX_WEB_RESULTS

/-- Item of the Unsplash search payload as read by `processUnsplashResults`
(the nested optional chains are flattened into optional fields). -/
structure UnsplashItem where
  urlsRegular : Option String := none
  urlsSmall : Option String := none
  urlsThumb : Option String := none
  linksHtml : Option String := none
  description : Option String := none
  alt_description : Option String := none
  userName : Option String := none
  width : Option Nat := none
  height : Option Nat := none
deriving DecidableEq, Repr

/-- Photo of the Pexels payload as read by `processPexelsResults`. -/
structure PexelsPhoto where
  srcLarge : Option String := none
  srcMedium : Option String := none
  url : Option String := none
  alt : Option String := none
  photographer : Option String := none
  width : Option Nat := none
  height : Option Nat := none
deriving DecidableEq, Repr

/-- Outcome of one provider API call: rejected fetch, non-ok response, a
`response.json()` failure, or a parsed payload (`data.results || []` /
`data.photos || []` is already applied, an absent array being `[]`). -/
inductive ApiOutcome (α : Type) where
  | netErr
  | notOk
  | jsonErr
  | ok (payload : α)
deriving DecidableEq, Repr

/-- Truthiness of an `ApiOutcome` as a failure (everything that routes the
code into the next fallback). -/
def ApiOutcome.failed {α : Type} : ApiOutcome α → Bool
  | .ok _ => false
  | _ => true

/-- Environment of the image-search fallback chain. -/
structure ImagesEnv where
  unsplash : ApiOutcome (List UnsplashItem)
  pexels : ApiOutcome (List PexelsPhoto)

/-- Function `processUnsplashResults` of `search.ts`: keep items having a
truthy `urls.regular` and `links.html`, stop once `MAX_IMAGE_RESULTS` were
collected. -/
def processUnsplashResults (items : List UnsplashItem) (query : String)
    (acc : List ImageResult := []) : List ImageResult :=
  match items with
  | [] => acc
  | item :: rest =>
    match item.urlsRegular, item.linksHtml with
    | some regular, some html =>
      if regular = "" ∨ html = "" then processUnsplashResults rest query acc
      else
        let acc' := acc ++ [{
          title := jsOr (jsOrOpt item.description item.alt_description)
                       ("Image of " ++ query),
          url := html,
          image := regular,
          thumbnail := jsOrOpt item.urlsSmall item.urlsThumb,
          source := some (jsOr item.userName "Unsplash"),
          width := item.width,
          height := item.height }]
        if MAX_IMAGE_RESULTS ≤ acc'.length then acc'
        else processUnsplashResults rest query acc'
    | _, _ => processUnsplashResults rest query acc

/-- Function `processPexelsResults` of `search.ts`. -/
def processPexelsResults (photos : List PexelsPhoto) (query : String)
    (acc : List ImageResult := []) : List ImageResult :=
  match photos with
  | [] => acc
  | photo :: rest =>
    match photo.srcLarge, photo.url with
    | some large, some purl =>
      if large = "" ∨ purl = "" then processPexelsResults rest query acc
      else
        let acc' := acc ++ [{
          title := jsOr photo.alt ("Photo of " ++ query),
          url := purl,
          image := large,
          thumbnail := photo.srcMedium,
          source := some (jsOr photo.photographer "Pexels"),
          width := photo.width,
          height := photo.height }]
        if MAX_IMAGE_RESULTS ≤ acc'.length then acc'
        else processPexelsResults rest query acc'
    | _, _ => processPexelsResults rest query acc

/-- Wrap of a JavaScript number into a signed 32-bit integer (`x | 0` /
`x & x` semantics). -/
def toInt32 (n : Int) : Int :=
  (n + 2 ^ 31) % 2 ^ 32 - 2 ^ 31

/-- UTF-16 code units of a string, the units `charCodeAt` iterates over. -/
def codeUnits (s : String) : List Nat :=
  s.data.flatMap (fun c =>
    let n := c.toNat
    if n < 0x10000 then [n]
    else [0xd800 + (n - 0x10000) / 0x400, 0xdc00 + (n - 0x10000) % 0x400])

/-- One loop iteration of `hashString`:
`hash = ((hash << 5) - hash) + char; hash = hash & hash`. -/
def hashStep (hash : Int) (char : Nat) : Int :=
  toInt32 (toInt32 (hash * 32) - hash + char)

/-- Function `hashString` of `search.ts` (the final `Math.abs`). -/
def hashString (s : String) : Int :=
  ((codeUnits s).foldl hashStep 0).natAbs

/-- Function `searchImagesFinalFallback` of `search.ts`: twelve deterministic
Lorem Picsum entries derived from the query hash (its `try` body cannot
throw). -/
def searchImagesFinalFallback (query : String) : List ImageResult :=
  (List.range MAX_IMAGE_RESULTS).map (fun (i : Nat) =>
    let imageId := (hashString query + (i : Int)) % 1000
    { title := "Image of " ++ query,
      url := "https://picsum.photos/id/" ++ toString imageId ++ "/info",
      image := "https://picsum.photos/800/600?image=" ++ toString imageId,
      thumbnail := some ("https://picsum.photos/200/150?image=" ++ toString imageId),
      source := some "Lorem Picsum",
      width := some 800,
      height := some 600 })

/-- Function `searchImagesFallback` of `search.ts`: Pexels, falling back to
the Lorem Picsum generator on a non-ok response or any thrown error. -/
def searchImagesFallback (env : ImagesEnv) (query : String) :
    Except JsError (List ImageResult) :=
  match env.pexels with
  | .ok photos => .ok (processPexelsResults photos query)
  | _ => .ok (searchImagesFinalFallback query)

/-- Function `searchImages` of `search.ts`: Unsplash, falling back to
`searchImagesFallback` on a non-ok response or any thrown error. -/
def searchImages (env : ImagesEnv) (query : String) :
    Except JsError (List ImageResult) :=
  match env.unsplash with
  | .ok items => .ok (processUnsplashResults items query)
  | _ => searchImagesFallback env query

end Search

namespace Crawler

open Js

/-- Function `buildPrompt` of `crawler.ts`. -/
def buildPrompt (query : String) (pages : List CrawledPage) : String :=
  let sourceBlocks := String.intercalate "\n\n" ((pages.enum).map
    (fun (p : Nat × CrawledPage) =>
      String.intercalate "\n"
        ["Source " ++ toString (p.1 + 1) ++ ":",
         "Title: " ++ p.2.title,
         "URL: " ++ p.2.url,
         "Content: " ++ p.2.content]))
  String.intercalate "\n"
    ["Question: " ++ query,
     "Be neutral and generalized; avoid over-relying on any single source.",
     "Prefer primary/official sources when possible and note uncertainty.",
     "Use the sources to answer with the most recent information available.",
     "If you find dates, mention them explicitly.",
     "If sources disagree or no recent date is found, say so clearly.",
     "Cite sources inline using [1], [2], etc.",
     "End the answer with a 'Sources:' section listing each source as:",
     "[1] Title — URL",
     "Keep it concise and easy to scan.",
     "",
     sourceBlocks]

/-- Function `summarizeWithoutLlm` of `crawler.ts`. -/
def summarizeWithoutLlm (query : String) (pages : List CrawledPage) : String :=
  let snippets := String.intercalate "\n" ((pages.enum).map
    (fun (p : Nat × CrawledPage) =>
      toString (p.1 + 1) ++ ". " ++ p.2.title ++ " — " ++
        jsOr p.2.snippet (strSlice p.2.content 160)))
  "No LLM key configured. Here are raw snippets for \"" ++ query ++ "\":\n" ++
    snippets

/-- Environment of `synthesizeAnswer`: the `DEEPSEEK_API_KEY` variable and an
oracle for the chat-completions call, applied to the built user prompt; the
payload value is `data?.choices?.[0]?.message?.content` (`none` when the
optional chain hits an absent field). -/
structure LlmEnv where
  apiKey : Option String := none
  respond : String → Search.ApiOutcome (Option String)

/-- Function `synthesizeAnswer` of `crawler.ts`: without a key, summarize
locally; otherwise call the LLM and throw on request failure or an empty
answer. -/
def synthesizeAnswer (env : LlmEnv) (query : String)
    (pages : List CrawledPage) : Except JsError String :=
  match env.apiKey with
  | none => .ok (summarizeWithoutLlm query pages)
  | some key =>
    if key = "" then .ok (summarizeWithoutLlm query pages)
    else
      match env.respond (buildPrompt query pages) with
      | .netErr => .error .network
      | .notOk => .error (.thrown "LLM request failed")
      | .jsonErr => .error .badJson
      | .ok content =>
        match content.map jsTrim with
        | some answer =>
          if answer = "" then .error (.thrown "LLM response empty")
          else .ok answer
        | none => .error (.thrown "LLM response empty")

end Crawler

namespace Api

open Js

/-- Response of a route handler, reduced to what the claims inspect: the
HTTP status and whether the JSON body is an `{ error: ... }` object. -/
structure RouteResponse where
  status : Nat
  hasError : Bool
deriving DecidableEq, Repr

/-- Value of one field of a parsed JSON body, as far as the
`typeof x === "string"` guard distinguishes it: absent (or `undefined`),
present with a non-string value, or a string. -/
inductive JsField where
  | absent
  | notStr
  | str (s : String)
deriving DecidableEq, Repr

/-- Extraction `typeof body?.query === "string" ? body.query.trim() : ""`. -/
def queryOf (f : JsField) : String :=
  match f with
  | .str s => jsTrim s
  | _ => ""

/-- Body of `POST /api/search` (only the `query` field is read). -/
structure SearchBody where
  query : JsField := .absent
deriving DecidableEq, Repr

/-- Body of the crawl route's POST.  `queries` is `some` exactly when the
field is an array (`Array.isArray`); its elements are the `String(q)`
conversions of the array members. -/
structure CrawlBody where
  query : JsField := .absent
  queries : Option (List String) := none
deriving DecidableEq, Repr

/-- Extraction
`Array.isArray(body?.queries) ? body.queries.map(q => String(q).trim()).filter(Boolean) : []`. -/
def queriesOf (f : Option (List String)) : List String :=
  match f with
  | some items => (items.map jsTrim).filter (fun s => ¬ s = "")
  | none => []

/-- Environment of `POST /api/search` (route.ts): the crawler library plus
the LLM environment. -/
structure SearchRouteEnv where
  crawler : Crawler.CrawlerEnv
  llm : Crawler.LlmEnv

/-- Handler `POST` of `src/app/api/search/route.ts`.  The body argument is
the outcome of `request.json()` (`none` = parse threw, caught as a 500).
Validation rejects a missing, non-string or blank `query` with a 400; any
later failure is caught as a 500; every success path returns the default 200
without an error object. -/
def searchRoutePOST (env : SearchRouteEnv) (body : Option SearchBody) :
    RouteResponse :=
  match body with
  | none => { status := 500, hasError := true }
  | some b =>
    let query := queryOf b.query
    if query = "" then { status := 400, hasError := true }
    else
      match Crawler.searchWeb env.crawler query with
      | .error _ => { status := 500, hasError := true }
      | .ok results =>
        if results.length = 0 then { status := 200, hasError := false }
        else
          match Crawler.crawlPages env.crawler.fetch results with
          | .error _ => { status := 500, hasError := true }
          | .ok pages =>
            if pages.length = 0 then { status := 200, hasError := false }
            else
              match Crawler.synthesizeAnswer env.llm query pages with
              | .error _ => { status := 500, hasError := true }
              | .ok _ => { status := 200, hasError := false }

/-- Environment of the Twitter crawl route.  `getCrawler()` falls back to a
mock crawler with the same interface when no bearer token is configured;
either implementation is a particular behaviour of the `TwitterEnv`
oracle. -/
structure CrawlRouteEnv where
  twitter : Twitter.TwitterEnv

/-- Handler `POST` of the Twitter crawl route (`src/unnamed/part_001`):
400 exactly when both the trimmed `query` and the filtered `queries` are
empty; `crawlMultipleQueries` cannot reject, a failing single-query
`searchTweets` is caught as a 500. -/
def crawlRoutePOST (env : CrawlRouteEnv) (body : Option CrawlBody) :
    RouteResponse :=
  match body with
  | none => { status := 500, hasError := true }
  | some b =>
    let query := queryOf b.query
    let queries := queriesOf b.queries
    if query = "" ∧ queries = [] then { status := 400, hasError := true }
    else if queries.length > 0 then
      match Twitter.crawlMultipleQueries env.twitter queries with
      | _ => { status := 200, hasError := false }
    else
      match Twitter.searchTweets env.twitter query with
      | .error _ => { status := 500, hasError := true }
      | .ok _ => { status := 200, hasError := false }

/-- Handler `GET` of the Twitter crawl route: the `query` URL parameter is
`url.searchParams.get("query")` (`none` when absent); the falsy test
`if (!query)` rejects both the absent and the empty value with a 400. -/
def crawlRouteGET (env : CrawlRouteEnv) (param : Option String) :
    RouteResponse :=
  match param with
  | none => { status := 400, hasError := true }
  | some q =>
    if q = "" then { status := 400, hasError := true }
    else
      match Twitter.searchTweets env.twitter q with
      | .error _ => { status := 500, hasError := true }
      | .ok _ => { status := 200, hasError := false }

end Api

namespace Fixtures

open Js Crawler Twitter Search Api

/-- Value of an `Except` when it succeeded. -/
def okValue {ε α : Type} : Except ε α → Option α
  | .ok a => some a
  | .error _ => none

/-- Search result pointing at a page whose reader fetch succeeds under
`fetchBadDirect`. -/
def rGood : SearchResult := { title := "Good", url := "https://good.com" }

/-- Search result whose reader and direct fetches both fail under
`fetchBadDirect`. -/
def rBad : SearchResult := { title := "Bad", url := "https://bad.com" }

/-- Fetch oracle where only the reader proxy of `good.com` answers with an ok
response; every other URL gets a non-ok response. -/
def fetchBadDirect : FetchFn := fun u =>
  if u = "https://r.jina.ai/http://good.com" then some (true, "hello")
  else some (false, "")

/-- Fetch oracle where every URL answers ok with the body `hello`. -/
def fetchAllOk : FetchFn := fun _ => some (true, "hello")

/-- Crawler environment where the API fetch rejects and the HTML fallback
endpoint for the query `rust` responds non-ok. -/
def envHtmlDown : CrawlerEnv :=
  { fetch := fun u => if u = ddgHtmlUrl "rust" then some (false, "") else none,
    parseJson := fun _ => none,
    linkMatches := fun _ => [],
    uddg := fun _ => none }

/-- Crawler environment where the API fetch rejects and the HTML fallback
endpoint for the query `rust` answers ok with a page yielding no regex
matches. -/
def envApiEmpty : CrawlerEnv :=
  { fetch := fun u =>
      if u = ddgHtmlUrl "rust" then some (true, "<html></html>") else none,
    parseJson := fun _ => none,
    linkMatches := fun _ => [],
    uddg := fun _ => none }

/-- DuckDuckGo payload with one abstract entry. -/
def payloadAbs : DuckDuckGoResponse :=
  { AbstractURL := some "https://example.com", Heading := some "Example" }

/-- Crawler environment whose API call succeeds with `payloadAbs`. -/
def envApiOk : CrawlerEnv :=
  { fetch := fun _ => some (true, "body"),
    parseJson := fun _ => some payloadAbs,
    linkMatches := fun _ => [],
    uddg := fun _ => none }

/-- Twitter environment whose every search is rejected with code 429. -/
def envRateLimited : TwitterEnv :=
  { search := fun _ => .error { code := some 429 }, now := "2024-01-01T00:00:00.000Z" }

/-- Crawl-route environment over `envRateLimited`. -/
def cenvRateLimited : Api.CrawlRouteEnv := { twitter := envRateLimited }

/-- Search-route environment over `envApiOk` with no LLM key. -/
def senvApiOk : Api.SearchRouteEnv :=
  { crawler := envApiOk, llm := { apiKey := none, respond := fun _ => .netErr } }

/-- Image environment where both providers reject. -/
def envImagesDown : Search.ImagesEnv :=
  { unsplash := .netErr, pexels := .netErr }

end Fixtures

namespace Fixtures

/-- Concrete tweet by `alice`. -/
def tweetA : Twitter.TweetResult :=
  { id := "1", text := "hi", author := { username := "alice", name := "Alice" },
    createdAt := "2024-01-01T00:00:00.000Z", url := "https://twitter.com/alice/status/1" }

/-- Concrete tweet by `bob`. -/
def tweetB : Twitter.TweetResult :=
  { id := "2", text := "yo", author := { username := "bob", name := "Bob" },
    createdAt := "2024-01-01T00:00:00.000Z", url := "https://twitter.com/bob/status/2" }

end Fixtures

/-- Decidable equality of `Except` values, used to evaluate the embedded
functions at concrete inputs. -/
instance {ε α : Type} [DecidableEq ε] [DecidableEq α] :
    DecidableEq (Except ε α) := fun a b =>
  match a, b with
  | .ok x, .ok y =>
    if h : x = y then .isTrue (by rw [h]) else .isFalse (by simp [h])
  | .error x, .error y =>
    if h : x = y then .isTrue (by rw [h]) else .isFalse (by simp [h])
  | .ok _, .error _ => .isFalse (by simp)
  | .error _, .ok _ => .isFalse (by simp)

section Helpers

/-- Accumulator monotonicity of `String.intercalate.go`. -/
theorem intercalate_go_length (s : String) :
    ∀ (l : List String) (acc : String),
      acc.length ≤ (String.intercalate.go acc s l).length := by
  intro l
  induction l with
  | nil => intro acc; simp [String.intercalate.go]
  | cons a as ih =>
    intro acc
    have h := ih (acc ++ s ++ a)
    calc acc.length ≤ (acc ++ s ++ a).length := by
          simp only [String.length_append]
          omega
      _ ≤ (String.intercalate.go (acc ++ s ++ a) s as).length := h
      _ = (String.intercalate.go acc s (a :: as)).length := rfl

/-- Lower length bound for a non-empty `String.intercalate`. -/
theorem intercalate_cons_length (s a : String) (l : List String) :
    a.length ≤ (String.intercalate s (a :: l)).length := by
  simpa [String.intercalate] using intercalate_go_length s l a

/-- Keys produced by the de-duplicating map loop are pairwise distinct. -/
theorem jsDedupeBy_nodup {α : Type} (key : α → String) (l : List α) :
    ((Crawler.jsDedupeBy key l).map key).Nodup := by
  suffices h : ∀ (acc : List α), (acc.map key).Nodup →
      ((l.foldl (fun acc item =>
        if acc.any (fun r => key r = key item) then acc else acc ++ [item]) acc).map key).Nodup by
    exact h [] (by simp)
  induction l with
  | nil => intro acc hacc; simpa using hacc
  | cons x xs ih =>
    intro acc hacc
    simp only [List.foldl_cons]
    by_cases hx : acc.any (fun r => key r = key x)
    · simpa [hx] using ih acc hacc
    · have hnotmem : key x ∉ acc.map key := by
        intro hmem
        rcases List.mem_map.mp hmem with ⟨r, hr, hkey⟩
        exact hx (List.any_eq_true.mpr ⟨r, hr, by simp [hkey]⟩)
      have : ((acc ++ [x]).map key).Nodup := by
        simp only [List.map_append, List.map_cons, List.map_nil]
        rw [List.nodup_append]
        refine ⟨hacc, by simp, ?_⟩
        intro a ha hb
        simp only [List.mem_cons, List.not_mem_nil, or_false] at hb
        exact hnotmem (hb ▸ ha)
      simpa [hx] using ih (acc ++ [x]) this

end Helpers

/-- C5: the constant limits: `searchTweets` defaults `max_results` to
`MAX_TWEETS_PER_CRAWL = 20`, `crawlMultipleQueries` only processes the first
`MAX_CONCURRENT_CRAWLS = 5` queries (and yields at most 5 responses), and
`crawlPages` only crawls the first `MAX_PAGES = 3` results. -/
theorem claim_C5 (tenv : Twitter.TwitterEnv) (q : String) (qs : List String)
    (fetch : Js.FetchFn) (rs : List Crawler.SearchResult) :
    (Twitter.mkSearchRequest q Twitter.MAX_TWEETS_PER_CRAWL).max_results = 20 ∧
    Twitter.searchTweets tenv q =
      Twitter.searchTweets tenv q Twitter.MAX_TWEETS_PER_CRAWL ∧
    Twitter.crawlMultipleQueries tenv qs =
      Twitter.crawlMultipleQueries tenv (qs.take Twitter.MAX_CONCURRENT_CRAWLS) ∧
    (Twitter.crawlMultipleQueries tenv qs).length ≤ 5 ∧
    Crawler.crawlPages fetch rs = Crawler.crawlPages fetch (rs.take Crawler.MAX_PAGES) ∧
    Twitter.MAX_TWEETS_PER_CRAWL = 20 ∧
    Twitter.MAX_CONCURRENT_CRAWLS = 5 ∧
    Crawler.MAX_PAGES = 3 := by
  refine ⟨rfl, rfl, ?_, ?_, ?_, rfl, rfl, rfl⟩
  · simp [Twitter.crawlMultipleQueries, List.take_take]
  · simp only [Twitter.crawlMultipleQueries, List.length_map, List.length_take]
    have := Nat.min_le_left Twitter.MAX_CONCURRENT_CRAWLS qs.length
    simpa [Twitter.MAX_CONCURRENT_CRAWLS] using this
  · simp [Crawler.crawlPages, List.take_take]

/-- C10: the Lorem Picsum fallback is deterministic: `hashString` is a pure
function with a non-negative value, and `searchImagesFinalFallback` always
returns exactly twelve entries whose image ids are
`(hashString query + i) % 1000`. -/
theorem claim_C10 (q q₂ : String) (i : Nat) :
    (q = q₂ → Search.hashString q = Search.hashString q₂) ∧
    0 ≤ Search.hashString q ∧
    (Search.searchImagesFinalFallback q).length = 12 ∧
    (i < 12 → (Search.searchImagesFinalFallback q)[i]? =
      some { title := "Image of " ++ q,
             url := "https://picsum.photos/id/" ++
                    toString ((Search.hashString q + i) % 1000) ++ "/info",
             image := "https://picsum.photos/800/600?image=" ++
                      toString ((Search.hashString q + i) % 1000),
             thumbnail := some ("https://picsum.photos/200/150?image=" ++
                      toString ((Search.hashString q + i) % 1000)),
             source := some "Lorem Picsum",
             width := some 800, height := some 600 }) := by
  refine ⟨fun h => h ▸ rfl, ?_, ?_, ?_⟩
  · simp only [Search.hashString]
    exact Int.natCast_nonneg _
  · simp only [Search.searchImagesFinalFallback, Search.MAX_IMAGE_RESULTS,
      List.length_map, List.length_range]
  · intro h
    rw [Search.searchImagesFinalFallback, List.getElem?_map]
    rw [show Search.MAX_IMAGE_RESULTS = 12 from rfl, List.getElem?_range h]
    rfl

/-- Witness for C10 at the query `"a"` and index 0. -/
theorem claim_C10_witness :
    (0 < 12) ∧
    (Search.searchImagesFinalFallback "a")[0]? =
      some { title := "Image of " ++ "a",
             url := "https://picsum.photos/id/" ++
                    toString ((Search.hashString "a" + 0) % 1000) ++ "/info",
             image := "https://picsum.photos/800/600?image=" ++
                      toString ((Search.hashString "a" + 0) % 1000),
             thumbnail := some ("https://picsum.photos/200/150?image=" ++
                      toString ((Search.hashString "a" + 0) % 1000)),
             source := some "Lorem Picsum",
             width := some 800, height := some 600 } :=
  ⟨by decide, (claim_C10 "a" "a" 0).2.2.2 (by decide)⟩

/-- Non-emptiness of the CSV export of a non-empty tweet list. -/
theorem toCSV_cons_ne_empty (t : Twitter.TweetResult)
    (ts : List Twitter.TweetResult) : ExportUtils.toCSV (t :: ts) ≠ "" := by
  intro h
  have hlen : (String.intercalate "," ExportUtils.csvHeaders).length ≤
      (ExportUtils.toCSV (t :: ts)).length := by
    simpa [ExportUtils.toCSV] using
      intercalate_cons_length "\n" (String.intercalate "," ExportUtils.csvHeaders)
        ((t :: ts).map ExportUtils.csvRow)
  rw [h] at hlen
  simp at hlen
  exact absurd hlen (by decide)

/-- C9: `toCSV` is empty exactly on the empty list; otherwise it is the fixed
11-column header line followed by one comma-joined row per tweet in input
order, in which only the text field is escaped; `escapeCSV` quotes (doubling
inner quotes) exactly when the text contains a comma, double quote or
newline. -/
theorem claim_C9 (tweets : List Twitter.TweetResult) (s : String) :
    (ExportUtils.toCSV tweets = "" ↔ tweets = []) ∧
    String.intercalate "," ExportUtils.csvHeaders =
      "ID,Text,Author Username,Author Name,Created At,URL,Retweet Count,Like Count,Reply Count,Quote Count,Media Count" ∧
    ExportUtils.csvHeaders.length = 11 ∧
    (tweets ≠ [] → ExportUtils.toCSV tweets = String.intercalate "\n"
      (String.intercalate "," ExportUtils.csvHeaders ::
        tweets.map (fun t => String.intercalate ","
          [t.id, ExportUtils.escapeCSV t.text, t.author.username, t.author.name,
           t.createdAt, t.url, toString t.retweetCount, toString t.likeCount,
           toString t.replyCount, toString (t.quoteCount.getD 0),
           toString ((t.media.map List.length).getD 0)]))) ∧
    ((Js.strHasChar s ',' ∨ Js.strHasChar s '"' ∨ Js.strHasChar s '\n') →
      ExportUtils.escapeCSV s =
        "\"" ++ String.mk (s.data.flatMap
          (fun c => if c = '"' then ['"', '"'] else [c])) ++ "\"") ∧
    (¬ (Js.strHasChar s ',' ∨ Js.strHasChar s '"' ∨ Js.strHasChar s '\n') →
      ExportUtils.escapeCSV s = s) := by
  refine ⟨⟨?_, ?_⟩, by decide, by decide, ?_, ?_, ?_⟩
  · intro h
    cases tweets with
    | nil => rfl
    | cons t ts => exact absurd h (toCSV_cons_ne_empty t ts)
  · intro h; subst h; rfl
  · intro h
    cases tweets with
    | nil => exact absurd rfl h
    | cons t ts => rfl
  · intro h
    rw [ExportUtils.escapeCSV, if_pos h]
  · intro h
    rw [ExportUtils.escapeCSV, if_neg h]

/-- Witness for C9 at a one-tweet list and a text that needs escaping. -/
theorem claim_C9_witness :
    (Fixtures.tweetA :: [] ≠ ([] : List Twitter.TweetResult)) ∧
    (Js.strHasChar "a,b" ',' ∨ Js.strHasChar "a,b" '"' ∨ Js.strHasChar "a,b" '\n') ∧
    ExportUtils.toCSV [Fixtures.tweetA] = String.intercalate "\n"
      (String.intercalate "," ExportUtils.csvHeaders ::
        [Fixtures.tweetA].map (fun t => String.intercalate ","
          [t.id, ExportUtils.escapeCSV t.text, t.author.username, t.author.name,
           t.createdAt, t.url, toString t.retweetCount, toString t.likeCount,
           toString t.replyCount, toString (t.quoteCount.getD 0),
           toString ((t.media.map List.length).getD 0)])) ∧
    ExportUtils.escapeCSV "a,b" =
      "\"" ++ String.mk ("a,b".data.flatMap
        (fun c => if c = '"' then ['"', '"'] else [c])) ++ "\"" :=
  ⟨by decide, by decide,
   (claim_C9 [Fixtures.tweetA] "a,b").2.2.2.1 (by decide),
   (claim_C9 [Fixtures.tweetA] "a,b").2.2.2.2.1 (by decide)⟩

/-- Keys of the counting map after one `set`: unchanged when the author was
present, else appended. -/
theorem bumpCount_map_fst (m : List (String × Nat)) (a : String) :
    (Twitter.bumpCount m a).map Prod.fst =
      if a ∈ m.map Prod.fst then m.map Prod.fst
      else m.map Prod.fst ++ [a] := by
  induction m with
  | nil => simp [Twitter.bumpCount]
  | cons kv rest ih =>
    obtain ⟨k, v⟩ := kv
    by_cases hk : k = a
    · subst hk
      simp [Twitter.bumpCount]
    · have hak : ¬ a = k := fun h => hk h.symm
      simp only [Twitter.bumpCount, if_neg hk, List.map_cons, ih,
        List.mem_cons, hak, false_or]
      by_cases hmem : a ∈ rest.map Prod.fst
      · simp [hmem]
      · simp [hmem]

/-- Counts of the counting map after one `set`: every stored pair counts its
key's occurrences in the processed prefix. -/
theorem bumpCount_counts (m : List (String × Nat)) (prev : List String)
    (a : String) (hnodup : (m.map Prod.fst).Nodup)
    (h3 : ∀ p ∈ m, p.2 = prev.count p.1)
    (hnew : a ∉ m.map Prod.fst → prev.count a = 0) :
    ∀ p ∈ Twitter.bumpCount m a, p.2 = (prev ++ [a]).count p.1 := by
  induction m with
  | nil =>
    intro p hp
    simp only [Twitter.bumpCount, List.mem_singleton] at hp
    subst hp
    have h0 : prev.count a = 0 := hnew (by simp)
    simp [List.count_append, h0]
  | cons kv rest ih =>
    obtain ⟨k, v⟩ := kv
    have hkmem : k ∉ rest.map Prod.fst :=
      (List.nodup_cons.mp (by simpa using hnodup)).1
    by_cases hk : k = a
    · subst hk
      intro p hp
      simp [Twitter.bumpCount] at hp
      rcases hp with hp | hp
      · subst hp
        have hv : v = prev.count k := by simpa using h3 (k, v) (by simp)
        simp [List.count_append, hv]
      · have hne : p.1 ≠ k :=
          fun heq => hkmem (heq ▸ List.mem_map_of_mem Prod.fst hp)
        have hcount : p.2 = prev.count p.1 := h3 p (List.mem_cons_of_mem _ hp)
        have hkp : ¬ (k == p.1) = true := by
          simpa using fun h => hne h.symm
        simp [List.count_append, List.count_singleton, hcount, hkp]
    · intro p hp
      simp only [Twitter.bumpCount, if_neg hk, List.mem_cons] at hp
      rcases hp with hp | hp
      · subst hp
        have hv : v = prev.count k := by simpa using h3 (k, v) (by simp)
        have hka : ¬ (a == k) = true := by
          simpa using fun h => hk h.symm
        simp [List.count_append, List.count_singleton, hv, hka]
      · have hrest : (rest.map Prod.fst).Nodup :=
          (List.nodup_cons.mp (by simpa using hnodup)).2
        have h3' : ∀ q ∈ rest, q.2 = prev.count q.1 :=
          fun q hq => h3 q (List.mem_cons_of_mem _ hq)
        have hnew' : a ∉ rest.map Prod.fst → prev.count a = 0 := by
          intro hna
          refine hnew ?_
          simp only [List.map_cons, List.mem_cons]
          rintro (h | h)
          · exact hk h.symm
          · exact hna h
        exact ih hrest h3' hnew' p hp

/-- Keys of the counting map after a fold: pairwise distinct, and exactly the
initial keys together with the processed authors. -/
theorem foldl_bump_keys (us : List String) :
    ∀ (m : List (String × Nat)), (m.map Prod.fst).Nodup →
      (((us.foldl Twitter.bumpCount m).map Prod.fst).Nodup ∧
       ∀ x, x ∈ (us.foldl Twitter.bumpCount m).map Prod.fst ↔
         x ∈ m.map Prod.fst ∨ x ∈ us) := by
  induction us with
  | nil => intro m hm; simpa using hm
  | cons a us ih =>
    intro m hm
    have hkeys := bumpCount_map_fst m a
    have hnodup' : ((Twitter.bumpCount m a).map Prod.fst).Nodup := by
      rw [hkeys]
      by_cases hmem : a ∈ m.map Prod.fst
      · simpa [hmem] using hm
      · simp only [if_neg hmem]
        rw [List.nodup_append]
        exact ⟨hm, by simp, by
          intro x hx hx'
          simp only [List.mem_cons, List.not_mem_nil, or_false] at hx'
          exact hmem (hx' ▸ hx)⟩
    have hmem' : ∀ x, x ∈ (Twitter.bumpCount m a).map Prod.fst ↔
        x ∈ m.map Prod.fst ∨ x = a := by
      intro x
      rw [hkeys]
      by_cases hmem : a ∈ m.map Prod.fst
      · simp only [if_pos hmem]
        constructor
        · exact Or.inl
        · rintro (h | h)
          · exact h
          · exact h ▸ hmem
      · simp [if_neg hmem]
    obtain ⟨h1, h2⟩ := ih (Twitter.bumpCount m a) hnodup'
    refine ⟨by simpa using h1, ?_⟩
    intro x
    have := h2 x
    simp only [List.foldl_cons]
    rw [this, hmem' x]
    simp only [List.mem_cons]
    tauto

/-- Counts of the counting map after a fold. -/
theorem foldl_bump_counts (us : List String) :
    ∀ (m : List (String × Nat)) (prev : List String),
      (m.map Prod.fst).Nodup →
      (∀ p ∈ m, p.2 = prev.count p.1) →
      (∀ x, x ∉ m.map Prod.fst → prev.count x = 0) →
      ∀ p ∈ us.foldl Twitter.bumpCount m, p.2 = (prev ++ us).count p.1 := by
  induction us with
  | nil =>
    intro m prev _ h3 _ p hp
    simpa using h3 p hp
  | cons a us ih =>
    intro m prev hm h3 hnew p hp
    have hkeys := bumpCount_map_fst m a
    have hnodup' : ((Twitter.bumpCount m a).map Prod.fst).Nodup := by
      rw [hkeys]
      by_cases hmem : a ∈ m.map Prod.fst
      · simpa [hmem] using hm
      · simp only [if_neg hmem]
        rw [List.nodup_append]
        exact ⟨hm, by simp, by
          intro x hx hx'
          simp only [List.mem_cons, List.not_mem_nil, or_false] at hx'
          exact hmem (hx' ▸ hx)⟩
    have h3' : ∀ q ∈ Twitter.bumpCount m a, q.2 = (prev ++ [a]).count q.1 :=
      bumpCount_counts m prev a hm h3 (hnew a)
    have hnew' : ∀ x, x ∉ (Twitter.bumpCount m a).map Prod.fst →
        (prev ++ [a]).count x = 0 := by
      intro x hx
      rw [hkeys] at hx
      have hxm : x ∉ m.map Prod.fst ∧ x ≠ a := by
        by_cases hmem : a ∈ m.map Prod.fst
        · rw [if_pos hmem] at hx
          exact ⟨hx, fun hxa => hx (hxa ▸ hmem)⟩
        · rw [if_neg hmem] at hx
          simp only [List.mem_append, List.mem_cons, List.not_mem_nil,
            or_false, not_or] at hx
          exact hx
      have h0 : prev.count x = 0 := hnew x hxm.1
      have hax : ¬ (a == x) = true := by
        simpa using fun h => hxm.2 h.symm
      simp [List.count_append, List.count_singleton, h0, hax]
    have := ih (Twitter.bumpCount m a) (prev ++ [a]) hnodup' h3' hnew' p
      (by simpa using hp)
    simpa [List.append_assoc] using this

/-- The counting map has one entry per distinct author. -/
theorem authorCounts_length (ts : List Twitter.TweetResult) :
    (Twitter.authorCounts ts).length =
      (ts.map (fun t => t.author.username)).dedup.length := by
  have hfold : Twitter.authorCounts ts =
      (ts.map (fun t => t.author.username)).foldl Twitter.bumpCount [] := by
    rw [Twitter.authorCounts, List.foldl_map]
  set us := ts.map (fun t => t.author.username) with hus
  obtain ⟨hnodup, hmem⟩ := foldl_bump_keys us [] (by simp)
  have hmem' : ∀ x, x ∈ (us.foldl Twitter.bumpCount []).map Prod.fst ↔ x ∈ us := by
    intro x
    rw [hmem x]
    simp
  have hfin : ((us.foldl Twitter.bumpCount []).map Prod.fst).toFinset =
      us.dedup.toFinset := by
    ext x
    simp only [List.mem_toFinset, List.mem_dedup]
    exact hmem' x
  have hcard := congrArg Finset.card hfin
  rw [List.toFinset_card_of_nodup hnodup,
    List.toFinset_card_of_nodup (List.nodup_dedup us)] at hcard
  calc (Twitter.authorCounts ts).length
      = ((us.foldl Twitter.bumpCount []).map Prod.fst).length := by
        rw [hfold, List.length_map]
    _ = us.dedup.length := hcard

/-- C8: both `getTopAuthors` implementations return `min n (distinct
authors)` usernames, each prefixed with `@`, ordered by non-increasing
number of tweets authored in the input list. -/
theorem claim_C8 (tweets : List Twitter.TweetResult) (n : Nat) :
    ∃ pairs : List (String × Nat),
      ExportUtils.getTopAuthors tweets n = pairs.map (fun p => "@" ++ p.1) ∧
      Twitter.getTopAuthors tweets n = pairs.map (fun p => "@" ++ p.1) ∧
      pairs.length = min n ((tweets.map (fun t => t.author.username)).dedup.length) ∧
      pairs.Pairwise (fun a b => b.2 ≤ a.2) ∧
      ∀ p ∈ pairs, p.2 = (tweets.map (fun t => t.author.username)).count p.1 := by
  refine ⟨(((Twitter.authorCounts tweets).mergeSort Twitter.byCountDesc).take n),
    rfl, rfl, ?_, ?_, ?_⟩
  · rw [List.length_take, List.length_mergeSort, authorCounts_length]
  · have htrans : ∀ a b c : String × Nat, Twitter.byCountDesc a b = true →
        Twitter.byCountDesc b c = true → Twitter.byCountDesc a c = true := by
      intro a b c hab hbc
      simp only [Twitter.byCountDesc, decide_eq_true_eq] at *
      omega
    have htotal : ∀ a b : String × Nat,
        (Twitter.byCountDesc a b || Twitter.byCountDesc b a) = true := by
      intro a b
      simp only [Twitter.byCountDesc, Bool.or_eq_true, decide_eq_true_eq]
      omega
    have hsorted := List.sorted_mergeSort htrans htotal (Twitter.authorCounts tweets)
    have hpair : ((Twitter.authorCounts tweets).mergeSort Twitter.byCountDesc).Pairwise
        (fun a b : String × Nat => b.2 ≤ a.2) := by
      refine hsorted.imp ?_
      intro a b h
      simpa [Twitter.byCountDesc] using h
    exact List.Pairwise.sublist (List.take_sublist n _) hpair
  · intro p hp
    have hp1 : p ∈ (Twitter.authorCounts tweets).mergeSort Twitter.byCountDesc :=
      (List.take_sublist n _).mem hp
    have hp2 : p ∈ Twitter.authorCounts tweets :=
      (List.mergeSort_perm (Twitter.authorCounts tweets) Twitter.byCountDesc).mem_iff.mp hp1
    have hfold : Twitter.authorCounts tweets =
        (tweets.map (fun t => t.author.username)).foldl Twitter.bumpCount [] := by
      rw [Twitter.authorCounts, List.foldl_map]
    rw [hfold] at hp2
    have := foldl_bump_counts (tweets.map (fun t => t.author.username)) [] []
      (by simp) (by simp) (by simp) p hp2
    simpa using this

/-- Witness for C8 at a two-tweet list. -/
theorem claim_C8_witness :
    ∃ pairs : List (String × Nat),
      ExportUtils.getTopAuthors [Fixtures.tweetA, Fixtures.tweetB] 3 =
        pairs.map (fun p => "@" ++ p.1) ∧
      Twitter.getTopAuthors [Fixtures.tweetA, Fixtures.tweetB] 3 =
        pairs.map (fun p => "@" ++ p.1) ∧
      pairs.length = min 3
        (([Fixtures.tweetA, Fixtures.tweetB].map (fun t => t.author.username)).dedup.length) ∧
      pairs.Pairwise (fun a b => b.2 ≤ a.2) ∧
      ∀ p ∈ pairs, p.2 =
        ([Fixtures.tweetA, Fixtures.tweetB].map (fun t => t.author.username)).count p.1 :=
  claim_C8 [Fixtures.tweetA, Fixtures.tweetB] 3

/-- Truncated de-duplicated lists have pairwise-distinct keys and bounded
length. -/
theorem dedupe_take_spec {α : Type} (key : α → String) (l : List α) (k : Nat) :
    (((Crawler.jsDedupeBy key l).take k).map key).Nodup ∧
    ((Crawler.jsDedupeBy key l).take k).length ≤ k := by
  constructor
  · have hsub : ((Crawler.jsDedupeBy key l).take k).map key |>.Sublist
        ((Crawler.jsDedupeBy key l).map key) :=
      List.Sublist.map key (List.take_sublist k _)
    exact List.Nodup.sublist hsub (jsDedupeBy_nodup key l)
  · rw [List.length_take]
    exact Nat.min_le_left _ _

/-- The de-duplicating map loop only appends: its output extends the
accumulator by a sublist of the input, kept in input order. -/
theorem foldl_dedupe_suffix {α : Type} (key : α → String) :
    ∀ (l acc : List α),
      ∃ t, l.foldl (fun acc item =>
          if acc.any (fun r => key r = key item) then acc
          else acc ++ [item]) acc = acc ++ t ∧ t.Sublist l := by
  intro l
  induction l with
  | nil => intro acc; exact ⟨[], by simp, List.nil_sublist _⟩
  | cons a rest ih =>
    intro acc
    by_cases hc : acc.any (fun r => key r = key a) = true
    · obtain ⟨t, ht, hsub⟩ := ih acc
      refine ⟨t, ?_, hsub.cons a⟩
      simp only [List.foldl_cons]
      rw [if_pos hc, ht]
    · obtain ⟨t, ht, hsub⟩ := ih (acc ++ [a])
      refine ⟨a :: t, ?_, hsub.cons₂ a⟩
      simp only [List.foldl_cons]
      rw [if_neg hc, ht, List.append_assoc]
      rfl

/-- Elements surviving the de-duplicating map loop are the first occurrences
of their keys in the whole processed sequence. -/
theorem foldl_dedupe_first {α : Type} (key : α → String) :
    ∀ (l acc processed : List α),
      (∀ k, k ∈ acc.map key ↔ k ∈ processed.map key) →
      (∀ x ∈ acc, (processed ++ l).find? (fun y => key y = key x) = some x) →
      ∀ x ∈ l.foldl (fun acc item =>
          if acc.any (fun r => key r = key item) then acc
          else acc ++ [item]) acc,
        (processed ++ l).find? (fun y => key y = key x) = some x := by
  intro l
  induction l with
  | nil =>
    intro acc processed _ hfirst x hx
    simpa using hfirst x (by simpa using hx)
  | cons a rest ih =>
    intro acc processed hkeys hfirst x hx
    simp only [List.foldl_cons] at hx
    have hassoc : processed ++ a :: rest = (processed ++ [a]) ++ rest := by
      simp
    by_cases hc : acc.any (fun r => key r = key a) = true
    · rw [if_pos hc] at hx
      have hamem : key a ∈ acc.map key := by
        obtain ⟨r, hr, hkr⟩ := List.any_eq_true.mp hc
        exact List.mem_map.mpr ⟨r, hr, by simpa using hkr⟩
      have hkeys' : ∀ k, k ∈ acc.map key ↔ k ∈ (processed ++ [a]).map key := by
        intro k
        simp only [List.map_append, List.mem_append, List.map_cons,
          List.map_nil, List.mem_singleton]
        constructor
        · intro h
          exact Or.inl ((hkeys k).mp h)
        · rintro (h | h)
          · exact (hkeys k).mpr h
          · exact h ▸ hamem
      have hfirst' : ∀ y ∈ acc,
          ((processed ++ [a]) ++ rest).find? (fun z => key z = key y) = some y := by
        intro y hy
        rw [← hassoc]
        exact hfirst y hy
      rw [hassoc]
      exact ih acc (processed ++ [a]) hkeys' hfirst' x hx
    · rw [if_neg hc] at hx
      have hka_acc : key a ∉ acc.map key := by
        intro hmem
        obtain ⟨r, hr, hkr⟩ := List.mem_map.mp hmem
        exact hc (List.any_eq_true.mpr ⟨r, hr, by simpa using hkr⟩)
      have hka_proc : key a ∉ processed.map key :=
        fun h => hka_acc ((hkeys _).mpr h)
      have hkeys' : ∀ k, k ∈ (acc ++ [a]).map key ↔
          k ∈ (processed ++ [a]).map key := by
        intro k
        simp only [List.map_append, List.mem_append]
        rw [hkeys k]
      have hfirst' : ∀ y ∈ acc ++ [a],
          ((processed ++ [a]) ++ rest).find? (fun z => key z = key y) = some y := by
        intro y hy
        rcases List.mem_append.mp hy with hy | hy
        · rw [← hassoc]
          exact hfirst y hy
        · simp only [List.mem_singleton] at hy
          subst hy
          rw [← hassoc, List.find?_append]
          have hnone : processed.find? (fun z => key z = key y) = none := by
            rw [List.find?_eq_none]
            intro z hz hzp
            exact hka_proc (List.mem_map.mpr ⟨z, hz, by simpa using hzp⟩)
          rw [hnone, Option.none_or]
          exact List.find?_cons_of_pos _ (by simp)
      rw [hassoc]
      exact ih (acc ++ [a]) (processed ++ [a]) hkeys' hfirst' x hx

/-- The de-duplicating map loop keeps the first occurrence of each key: every
survivor is the first element of the input bearing its key. -/
theorem jsDedupeBy_first {α : Type} (key : α → String) (l : List α) :
    ∀ x ∈ Crawler.jsDedupeBy key l,
      l.find? (fun y => key y = key x) = some x := by
  intro x hx
  have h := foldl_dedupe_first key l [] [] (by simp) (by simp) x
    (by simpa [Crawler.jsDedupeBy] using hx)
  simpa using h

/-- The de-duplicating map loop returns a sublist of its input (survivors
appear in input order). -/
theorem jsDedupeBy_sublist {α : Type} (key : α → String) (l : List α) :
    (Crawler.jsDedupeBy key l).Sublist l := by
  obtain ⟨t, ht, hsub⟩ := foldl_dedupe_suffix key l []
  rw [Crawler.jsDedupeBy, ht]
  simpa using hsub

/-- C4: `searchWeb` (crawler.ts) returns at most 6 results with pairwise
distinct URLs, keeping for each URL the first occurrence among the gathered
results (in gathering order), and `parseWebResultsFromHtml` (search.ts)
returns at most 8 results with pairwise distinct URLs, keeping the first
collected occurrence of each URL, whatever the provider payload or HTML page
contained. -/
theorem claim_C4 (env : Crawler.CrawlerEnv) (q : String)
    (r : List Crawler.SearchResult) (uddg : Crawler.UddgFn)
    (ms : List Crawler.LinkMatch) :
    (Crawler.searchWeb env q = .ok r →
      r = (Crawler.jsDedupeBy Crawler.SearchResult.url
            (Crawler.gatheredResults env q)).take Crawler.MAX_RESULTS ∧
      (r.map Crawler.SearchResult.url).Nodup ∧ r.length ≤ 6 ∧
      r.Sublist (Crawler.gatheredResults env q) ∧
      ∀ x ∈ r, (Crawler.gatheredResults env q).find?
        (fun y => y.url = x.url) = some x) ∧
    ((Search.parseWebResultsFromHtml uddg ms).map Search.WebResult.url).Nodup ∧
    (Search.parseWebResultsFromHtml uddg ms).length ≤ 8 ∧
    (Search.parseWebResultsFromHtml uddg ms).Sublist
      (Search.collectWebResults uddg ms) ∧
    ∀ x ∈ Search.parseWebResultsFromHtml uddg ms,
      (Search.collectWebResults uddg ms).find?
        (fun y => y.url = x.url) = some x := by
  constructor
  · intro h
    simp only [Crawler.searchWeb] at h
    by_cases hlen : (Crawler.apiGather env q).length = 0
    · rw [if_pos hlen] at h
      cases hddg : Crawler.searchDuckDuckGoHtml env q with
      | error e =>
        rw [hddg] at h
        exact absurd h (by simp)
      | ok htmlResults =>
        rw [hddg] at h
        have hg : Crawler.gatheredResults env q =
            Crawler.apiGather env q ++ htmlResults := by
          simp only [Crawler.gatheredResults]
          rw [if_pos hlen, hddg]
        have hr : r = (Crawler.jsDedupeBy Crawler.SearchResult.url
            (Crawler.apiGather env q ++ htmlResults)).take Crawler.MAX_RESULTS :=
          (Except.ok.inj h).symm
        subst hr
        refine ⟨by rw [hg], (dedupe_take_spec _ _ _).1,
          (dedupe_take_spec _ _ _).2, ?_, ?_⟩
        · rw [hg]
          exact (List.take_sublist _ _).trans
            (jsDedupeBy_sublist Crawler.SearchResult.url _)
        · intro x hx
          rw [hg]
          exact jsDedupeBy_first Crawler.SearchResult.url _ x
            ((List.take_sublist _ _).mem hx)
    · rw [if_neg hlen] at h
      have hg : Crawler.gatheredResults env q = Crawler.apiGather env q := by
        simp only [Crawler.gatheredResults]
        rw [if_neg hlen]
      have hr : r = (Crawler.jsDedupeBy Crawler.SearchResult.url
          (Crawler.apiGather env q)).take Crawler.MAX_RESULTS :=
        (Except.ok.inj h).symm
      subst hr
      refine ⟨by rw [hg], (dedupe_take_spec _ _ _).1,
        (dedupe_take_spec _ _ _).2, ?_, ?_⟩
      · rw [hg]
        exact (List.take_sublist _ _).trans
          (jsDedupeBy_sublist Crawler.SearchResult.url _)
      · intro x hx
        rw [hg]
        exact jsDedupeBy_first Crawler.SearchResult.url _ x
          ((List.take_sublist _ _).mem hx)
  · simp only [Search.parseWebResultsFromHtml]
    refine ⟨(dedupe_take_spec _ _ _).1, (dedupe_take_spec _ _ _).2, ?_, ?_⟩
    · exact (List.take_sublist _ _).trans
        (jsDedupeBy_sublist Search.WebResult.url _)
    · intro x hx
      exact jsDedupeBy_first Search.WebResult.url _ x
        ((List.take_sublist _ _).mem hx)

/-- Witness for C4: a concrete environment whose API answers with one
abstract entry. -/
theorem claim_C4_witness :
    Crawler.searchWeb Fixtures.envApiOk "q" =
      .ok [{ title := "Example", url := "https://example.com" }] ∧
    ([{ title := "Example", url := "https://example.com" }] :
        List Crawler.SearchResult) =
      (Crawler.jsDedupeBy Crawler.SearchResult.url
        (Crawler.gatheredResults Fixtures.envApiOk "q")).take
          Crawler.MAX_RESULTS ∧
    (([{ title := "Example", url := "https://example.com" }] :
        List Crawler.SearchResult).map Crawler.SearchResult.url).Nodup ∧
    ([{ title := "Example", url := "https://example.com" }] :
        List Crawler.SearchResult).length ≤ 6 ∧
    ([{ title := "Example", url := "https://example.com" }] :
        List Crawler.SearchResult).Sublist
      (Crawler.gatheredResults Fixtures.envApiOk "q") ∧
    ∀ x ∈ ([{ title := "Example", url := "https://example.com" }] :
        List Crawler.SearchResult),
      (Crawler.gatheredResults Fixtures.envApiOk "q").find?
        (fun y => y.url = x.url) = some x :=
  have h : Crawler.searchWeb Fixtures.envApiOk "q" =
      .ok [{ title := "Example", url := "https://example.com" }] := by decide
  have hc := (claim_C4 Fixtures.envApiOk "q" _ (fun _ => none) []).1 h
  ⟨h, hc.1, hc.2.1, hc.2.2.1, hc.2.2.2.1, hc.2.2.2.2⟩

/-- Length bound of the Unsplash collection loop: starting strictly below the
cap, the `break` keeps the result at the cap or below. -/
theorem processUnsplash_len (items : List Search.UnsplashItem) (q : String) :
    ∀ acc : List Search.ImageResult, acc.length < Search.MAX_IMAGE_RESULTS →
      (Search.processUnsplashResults items q acc).length ≤
        Search.MAX_IMAGE_RESULTS := by
  induction items with
  | nil =>
    intro acc hacc
    rw [Search.processUnsplashResults]
    omega
  | cons item rest ih =>
    intro acc hacc
    rw [Search.processUnsplashResults]
    cases item.urlsRegular with
    | none => exact ih acc hacc
    | some regular =>
      cases item.linksHtml with
      | none => exact ih acc hacc
      | some html =>
        simp only
        split
        · exact ih acc hacc
        · split
          · simpa using (by omega : acc.length + 1 ≤ Search.MAX_IMAGE_RESULTS)
          · rename_i hlt
            refine ih _ ?_
            simp only [List.length_append, List.length_cons, List.length_nil] at hlt ⊢
            omega

/-- Length bound of the Pexels collection loop. -/
theorem processPexels_len (photos : List Search.PexelsPhoto) (q : String) :
    ∀ acc : List Search.ImageResult, acc.length < Search.MAX_IMAGE_RESULTS →
      (Search.processPexelsResults photos q acc).length ≤
        Search.MAX_IMAGE_RESULTS := by
  induction photos with
  | nil =>
    intro acc hacc
    rw [Search.processPexelsResults]
    omega
  | cons photo rest ih =>
    intro acc hacc
    rw [Search.processPexelsResults]
    cases photo.srcLarge with
    | none => exact ih acc hacc
    | some large =>
      cases photo.url with
      | none => exact ih acc hacc
      | some purl =>
        simp only
        split
        · exact ih acc hacc
        · split
          · simpa using (by omega : acc.length + 1 ≤ Search.MAX_IMAGE_RESULTS)
          · rename_i hlt
            refine ih _ ?_
            simp only [List.length_append, List.length_cons, List.length_nil] at hlt ⊢
            omega

/-- C7: `searchImages` never rejects: an Unsplash failure routes to the
Pexels fallback, a further Pexels failure routes to the Lorem Picsum
generator, and every outcome is an `ok` list of at most 12 results. -/
theorem claim_C7 (env : Search.ImagesEnv) (q : String) :
    (env.unsplash.failed = true →
      Search.searchImages env q = Search.searchImagesFallback env q) ∧
    (env.unsplash.failed = true → env.pexels.failed = true →
      Search.searchImages env q = .ok (Search.searchImagesFinalFallback q)) ∧
    ∃ l, Search.searchImages env q = .ok l ∧ l.length ≤ 12 := by
  refine ⟨?_, ?_, ?_⟩
  · intro hu
    cases henv : env.unsplash with
    | ok items => rw [henv] at hu; simp [Search.ApiOutcome.failed] at hu
    | netErr => rw [Search.searchImages, henv]
    | notOk => rw [Search.searchImages, henv]
    | jsonErr => rw [Search.searchImages, henv]
  · intro hu hp
    have h1 : Search.searchImages env q = Search.searchImagesFallback env q := by
      cases henv : env.unsplash with
      | ok items => rw [henv] at hu; simp [Search.ApiOutcome.failed] at hu
      | netErr => rw [Search.searchImages, henv]
      | notOk => rw [Search.searchImages, henv]
      | jsonErr => rw [Search.searchImages, henv]
    rw [h1]
    cases henv : env.pexels with
    | ok photos => rw [henv] at hp; simp [Search.ApiOutcome.failed] at hp
    | netErr => rw [Search.searchImagesFallback, henv]
    | notOk => rw [Search.searchImagesFallback, henv]
    | jsonErr => rw [Search.searchImagesFallback, henv]
  · have hfinal : (Search.searchImagesFinalFallback q).length ≤ 12 := by
      simp only [Search.searchImagesFinalFallback, Search.MAX_IMAGE_RESULTS,
        List.length_map, List.length_range]
      omega
    have hfb : ∃ l, Search.searchImagesFallback env q = .ok l ∧ l.length ≤ 12 := by
      cases henv : env.pexels with
      | ok photos =>
        refine ⟨_, by rw [Search.searchImagesFallback, henv], ?_⟩
        exact processPexels_len photos q [] (by simp [Search.MAX_IMAGE_RESULTS])
      | netErr => exact ⟨_, by rw [Search.searchImagesFallback, henv], hfinal⟩
      | notOk => exact ⟨_, by rw [Search.searchImagesFallback, henv], hfinal⟩
      | jsonErr => exact ⟨_, by rw [Search.searchImagesFallback, henv], hfinal⟩
    cases henv : env.unsplash with
    | ok items =>
      refine ⟨_, by rw [Search.searchImages, henv], ?_⟩
      exact processUnsplash_len items q [] (by simp [Search.MAX_IMAGE_RESULTS])
    | netErr => rw [Search.searchImages, henv]; exact hfb
    | notOk => rw [Search.searchImages, henv]; exact hfb
    | jsonErr => rw [Search.searchImages, henv]; exact hfb

/-- Witness for C7: both providers rejecting routes to the Lorem Picsum
generator. -/
theorem claim_C7_witness :
    Fixtures.envImagesDown.unsplash.failed = true ∧
    Fixtures.envImagesDown.pexels.failed = true ∧
    Search.searchImages Fixtures.envImagesDown "q" =
      .ok (Search.searchImagesFinalFallback "q") :=
  ⟨rfl, rfl, (claim_C7 Fixtures.envImagesDown "q").2.1 rfl rfl⟩

/-- C3: `crawlMultipleQueries` yields exactly one response per processed
query, in input order; a query whose `searchTweets` throws yields an empty
tweet list with the caught error's summary, and each response depends only on
its own query. -/
theorem claim_C3 (env : Twitter.TwitterEnv) (qs : List String) (i : Nat)
    (q : String) :
    (Twitter.crawlMultipleQueries env qs).length =
      min Twitter.MAX_CONCURRENT_CRAWLS qs.length ∧
    ((qs.take Twitter.MAX_CONCURRENT_CRAWLS)[i]? = some q →
      ∃ resp, (Twitter.crawlMultipleQueries env qs)[i]? = some resp ∧
        resp.query = q ∧ resp.crawledAt = env.now ∧
        (∀ msg, Twitter.searchTweets env q = .error msg →
          resp.tweets = [] ∧ resp.summary = Twitter.crawlErrorMessage q msg) ∧
        (∀ ts, Twitter.searchTweets env q = .ok ts →
          resp.tweets = ts ∧ resp.summary = Twitter.generateSummary ts q)) := by
  constructor
  · simp [Twitter.crawlMultipleQueries]
  · intro h
    refine ⟨Twitter.crawlOneQuery env q, ?_, ?_, ?_, ?_, ?_⟩
    · rw [Twitter.crawlMultipleQueries, List.getElem?_map, h]
      rfl
    · cases hst : Twitter.searchTweets env q with
      | ok ts => simp [Twitter.crawlOneQuery, hst]
      | error msg => simp [Twitter.crawlOneQuery, hst]
    · cases hst : Twitter.searchTweets env q with
      | ok ts => simp [Twitter.crawlOneQuery, hst]
      | error msg => simp [Twitter.crawlOneQuery, hst]
    · intro msg hmsg
      simp [Twitter.crawlOneQuery, hmsg]
    · intro ts hts
      simp [Twitter.crawlOneQuery, hts]

/-- Witness for C3 at a single rate-limited query. -/
theorem claim_C3_witness :
    ((["a"].take Twitter.MAX_CONCURRENT_CRAWLS)[0]? = some "a") ∧
    (∃ resp, (Twitter.crawlMultipleQueries Fixtures.envRateLimited ["a"])[0]? =
        some resp ∧
      resp.query = "a" ∧ resp.crawledAt = Fixtures.envRateLimited.now ∧
      (∀ msg, Twitter.searchTweets Fixtures.envRateLimited "a" = .error msg →
        resp.tweets = [] ∧ resp.summary = Twitter.crawlErrorMessage "a" msg) ∧
      (∀ ts, Twitter.searchTweets Fixtures.envRateLimited "a" = .ok ts →
        resp.tweets = ts ∧ resp.summary = Twitter.generateSummary ts "a")) :=
  ⟨by decide, (claim_C3 Fixtures.envRateLimited ["a"] 0 "a").2 (by decide)⟩

/-- A `Promise.all` (`mapM` in `Except`) over elementwise-succeeding
computations succeeds with the collected values. -/
theorem mapM_except_ok {α β ε : Type} (f : α → Except ε β) :
    ∀ (l : List α), (∀ x ∈ l, ∃ y, f x = .ok y) →
      l.mapM f = .ok (l.filterMap (fun x => (f x).toOption)) := by
  intro l
  induction l with
  | nil => intro _; rfl
  | cons a l ih =>
    intro h
    obtain ⟨y, hy⟩ := h a (by simp)
    have hrest := ih (fun x hx => h x (by simp [hx]))
    rw [List.mapM_cons, hy, hrest]
    simp [Bind.bind, Except.bind, Pure.pure, Except.pure, List.filterMap_cons,
      hy, Except.toOption]

/-- A `Promise.all` (`mapM` in `Except`) over a list with a failing element
rejects. -/
theorem mapM_except_error {α β ε : Type} (f : α → Except ε β) :
    ∀ (l : List α), (∃ x ∈ l, ∃ e, f x = .error e) →
      ∃ e, l.mapM f = .error e := by
  intro l
  induction l with
  | nil => rintro ⟨x, hx, _⟩; simp at hx
  | cons a l ih =>
    rintro ⟨x, hx, e, he⟩
    cases hfa : f a with
    | error ea =>
      exact ⟨ea, by rw [List.mapM_cons, hfa]; simp [Bind.bind, Except.bind]⟩
    | ok ya =>
      have hxl : x ∈ l := by
        rcases List.mem_cons.mp hx with hxa | hxl
        · subst hxa
          rw [hfa] at he
          exact absurd he (by simp)
        · exact hxl
      obtain ⟨e', he'⟩ := ih ⟨x, hxl, e, he⟩
      exact ⟨e', by rw [List.mapM_cons, hfa, he']; simp [Bind.bind, Except.bind]⟩

/-- C1 (corrected): `crawlPages` fans out over the first `MAX_PAGES` targets;
when every target's `fetchReadableText` succeeds it returns the fetched pages
with non-empty content, but when any target fails both the reader proxy and
the direct fetch, the whole call rejects instead of returning the successful
pages. -/
theorem claim_C1 (fetch : Js.FetchFn) (results : List Crawler.SearchResult) :
    ((∀ r ∈ results.take Crawler.MAX_PAGES,
        ∃ t, Crawler.fetchReadableText fetch r.url = .ok t) →
      Crawler.crawlPages fetch results =
        .ok (((results.take Crawler.MAX_PAGES).filterMap (fun r =>
          ((Crawler.fetchReadableText fetch r.url).map
            (Crawler.toCrawledPage r)).toOption)).filter
          (fun page => page.content.length > 0))) ∧
    ((∃ r ∈ results.take Crawler.MAX_PAGES,
        ∃ e, Crawler.fetchReadableText fetch r.url = .error e) →
      ∃ e, Crawler.crawlPages fetch results = .error e) := by
  constructor
  · intro h
    have hall : ∀ x ∈ results.take Crawler.MAX_PAGES,
        ∃ y, ((Crawler.fetchReadableText fetch x.url).map
          (Crawler.toCrawledPage x)) = .ok y := by
      intro x hx
      obtain ⟨t, ht⟩ := h x hx
      exact ⟨Crawler.toCrawledPage x t, by rw [ht]; rfl⟩
    rw [Crawler.crawlPages,
      mapM_except_ok (fun item => ((Crawler.fetchReadableText fetch item.url).map
        (Crawler.toCrawledPage item))) _ hall]
    rfl
  · rintro ⟨r, hr, e, he⟩
    have hfail : ∃ x ∈ results.take Crawler.MAX_PAGES,
        ∃ e', ((Crawler.fetchReadableText fetch x.url).map
          (Crawler.toCrawledPage x)) = .error e' :=
      ⟨r, hr, e, by rw [he]; rfl⟩
    obtain ⟨e', he'⟩ := mapM_except_error _ _ hfail
    exact ⟨e', by rw [Crawler.crawlPages, he']; rfl⟩

/-- Witness for C1 at an all-ok fetch environment and a single target. -/
theorem claim_C1_witness :
    (∀ r ∈ [Fixtures.rGood].take Crawler.MAX_PAGES,
      ∃ t, Crawler.fetchReadableText Fixtures.fetchAllOk r.url = .ok t) ∧
    Crawler.crawlPages Fixtures.fetchAllOk [Fixtures.rGood] =
      .ok ((([Fixtures.rGood].take Crawler.MAX_PAGES).filterMap (fun r =>
        ((Crawler.fetchReadableText Fixtures.fetchAllOk r.url).map
          (Crawler.toCrawledPage r)).toOption)).filter
        (fun page => page.content.length > 0)) :=
  have h : ∀ r ∈ [Fixtures.rGood].take Crawler.MAX_PAGES,
      ∃ t, Crawler.fetchReadableText Fixtures.fetchAllOk r.url = .ok t := by
    intro r hr
    have : r = Fixtures.rGood := by
      simpa [Crawler.MAX_PAGES] using hr
    subst this
    exact ⟨"hello", by decide⟩
  ⟨h, (claim_C1 Fixtures.fetchAllOk [Fixtures.rGood]).1 h⟩

/-- Counterexample to C1 as stated: with one page failing both fetches and
another succeeding, `crawlPages` rejects the whole batch instead of returning
the page that succeeded. -/
theorem claim_C1_cex :
    Crawler.crawlPages Fixtures.fetchBadDirect [Fixtures.rBad, Fixtures.rGood] =
      .error (.thrown "Fetch failed") ∧
    Crawler.fetchReadableText Fixtures.fetchBadDirect Fixtures.rGood.url =
      .ok "hello" ∧
    Crawler.crawlPages Fixtures.fetchBadDirect [Fixtures.rBad, Fixtures.rGood] ≠
      .ok [Crawler.toCrawledPage Fixtures.rGood "hello"] :=
  ⟨by decide, by decide, by decide⟩

/-- C2 (corrected): `searchWeb` swallows every JSON-API failure and falls
back to the HTML endpoint when no API result was gathered, but a failure of
that fallback propagates out of `searchWeb` instead of producing an empty
result list. -/
theorem claim_C2 (env : Crawler.CrawlerEnv) (q : String) :
    (Crawler.apiGather env q ≠ [] →
      Crawler.searchWeb env q =
        .ok ((Crawler.jsDedupeBy Crawler.SearchResult.url
          (Crawler.apiGather env q)).take Crawler.MAX_RESULTS)) ∧
    (∀ l, Crawler.apiGather env q = [] →
      Crawler.searchDuckDuckGoHtml env q = .ok l →
      Crawler.searchWeb env q =
        .ok ((Crawler.jsDedupeBy Crawler.SearchResult.url
          (Crawler.apiGather env q ++ l)).take Crawler.MAX_RESULTS)) ∧
    (∀ e, Crawler.apiGather env q = [] →
      Crawler.searchDuckDuckGoHtml env q = .error e →
      Crawler.searchWeb env q = .error e) := by
  refine ⟨?_, ?_, ?_⟩
  · intro h
    have hlen : ¬ (Crawler.apiGather env q).length = 0 := by
      simpa [List.length_eq_zero] using h
    simp only [Crawler.searchWeb, if_neg hlen]
  · intro l h hddg
    simp [Crawler.searchWeb, h, hddg]
  · intro e h hddg
    simp [Crawler.searchWeb, h, hddg]

/-- Witness for C2: an environment whose API call rejects and whose HTML
fallback succeeds with no matches, yielding the empty result list. -/
theorem claim_C2_witness :
    Crawler.apiGather Fixtures.envApiEmpty "rust" = [] ∧
    Crawler.searchDuckDuckGoHtml Fixtures.envApiEmpty "rust" = .ok [] ∧
    Crawler.searchWeb Fixtures.envApiEmpty "rust" =
      .ok ((Crawler.jsDedupeBy Crawler.SearchResult.url
        (Crawler.apiGather Fixtures.envApiEmpty "rust" ++ [])).take
          Crawler.MAX_RESULTS) :=
  ⟨by decide, by decide,
   (claim_C2 Fixtures.envApiEmpty "rust").2.1 [] (by decide) (by decide)⟩

/-- Counterexample to C2 as stated: when the API call fails and the HTML
fallback answers non-ok, `searchWeb` rejects with `Search provider error`
instead of returning an empty result list. -/
theorem claim_C2_cex :
    Crawler.searchWeb Fixtures.envHtmlDown "rust" =
      .error (.thrown "Search provider error") ∧
    Crawler.searchWeb Fixtures.envHtmlDown "rust" ≠ .ok [] :=
  ⟨by decide, by decide⟩

/-- Emptiness of the extracted `query` as the three-way validation condition
of the claim. -/
theorem queryOf_empty_iff (f : Api.JsField) :
    Api.queryOf f = "" ↔
      (f = .absent ∨ f = .notStr ∨ ∃ s, f = .str s ∧ Js.jsTrim s = "") := by
  cases f with
  | absent => simp [Api.queryOf]
  | notStr => simp [Api.queryOf]
  | str s => simp [Api.queryOf]

/-- C6 (corrected): `POST /api/search` rejects with a 400 error object
exactly when the body's `query` is absent, non-string or blank after
trimming; the crawl route's POST rejects with 400 exactly when both the
trimmed `query` and the filtered `queries` are empty; its GET rejects with
400 exactly when the `query` parameter is missing or present with an empty
value. -/
theorem claim_C6 (senv : Api.SearchRouteEnv) (cenv : Api.CrawlRouteEnv) :
    (∀ b : Api.SearchBody,
      ((Api.searchRoutePOST senv (some b)).status = 400 ↔
        (b.query = .absent ∨ b.query = .notStr ∨
          ∃ s, b.query = .str s ∧ Js.jsTrim s = "")) ∧
      ((Api.searchRoutePOST senv (some b)).status = 400 →
        (Api.searchRoutePOST senv (some b)).hasError = true)) ∧
    (∀ b : Api.CrawlBody,
      (Api.crawlRoutePOST cenv (some b)).status = 400 ↔
        (Api.queryOf b.query = "" ∧ Api.queriesOf b.queries = [])) ∧
    (∀ p : Option String,
      (Api.crawlRouteGET cenv p).status = 400 ↔ (p = none ∨ p = some "")) := by
  have hsearch : ∀ b : Api.SearchBody,
      (Api.searchRoutePOST senv (some b)).status = 400 ↔
        Api.queryOf b.query = "" := by
    intro b
    by_cases hq : Api.queryOf b.query = ""
    · simp [Api.searchRoutePOST, hq]
    · simp only [Api.searchRoutePOST, if_neg hq]
      constructor
      · intro h
        exfalso
        revert h
        split
        · decide
        · split
          · decide
          · split
            · decide
            · split
              · decide
              · split
                · decide
                · decide
      · intro h
        exact absurd h hq
  refine ⟨?_, ?_, ?_⟩
  · intro b
    refine ⟨(hsearch b).trans (queryOf_empty_iff b.query), ?_⟩
    intro h
    have hq : Api.queryOf b.query = "" := (hsearch b).mp h
    simp [Api.searchRoutePOST, hq]
  · intro b
    by_cases hcond : Api.queryOf b.query = "" ∧ Api.queriesOf b.queries = []
    · simp [Api.crawlRoutePOST, hcond]
    · simp only [Api.crawlRoutePOST, if_neg hcond]
      constructor
      · intro h
        exfalso
        revert h
        split
        · decide
        · split
          · decide
          · decide
      · intro h
        exact absurd h hcond
  · intro p
    cases p with
    | none => simp [Api.crawlRouteGET]
    | some q =>
      by_cases hq : q = ""
      · simp [Api.crawlRouteGET, hq]
      · simp only [Api.crawlRouteGET, if_neg hq]
        constructor
        · intro h
          exfalso
          revert h
          split
          · decide
          · decide
        · rintro (h | h)
          · exact absurd h (by simp)
          · exact absurd (Option.some.inj h) hq

/-- Witness for C6: concrete 400 responses on each route. -/
theorem claim_C6_witness :
    (Api.searchRoutePOST Fixtures.senvApiOk
      (some { query := .absent })).status = 400 ∧
    (Api.crawlRoutePOST Fixtures.cenvRateLimited
      (some { query := .absent, queries := none })).status = 400 ∧
    (Api.crawlRouteGET Fixtures.cenvRateLimited none).status = 400 :=
  have h := claim_C6 Fixtures.senvApiOk Fixtures.cenvRateLimited
  ⟨((h.1 { query := .absent }).1).mpr (Or.inl rfl),
   (h.2.1 { query := .absent, queries := none }).mpr ⟨rfl, rfl⟩,
   (h.2.2 none).mpr (Or.inl rfl)⟩

/-- Counterexample to C6 as stated: a present-but-empty `query` URL
parameter also draws a 400 from the crawl route's GET handler, though the
parameter is not missing. -/
theorem claim_C6_cex :
    (Api.crawlRouteGET Fixtures.cenvRateLimited (some "")).status = 400 ∧
    (Api.crawlRouteGET Fixtures.cenvRateLimited (some "")).hasError = true ∧
    (some "" : Option String) ≠ none :=
  ⟨by decide, by decide, by decide⟩
